import Mathlib

/-!
# gpumon: telemetry reader and bar renderer

A shallow embedding of `src/main.cpp` (the `device` class, `draw_bar`, `draw_labels`,
`handle_winch`, `signal_handler` and the loop of `main`) together with the properties of the
written specification that were checked against it.

Conventions of the embedding.

* A `std::string` is a `String` holding one character per byte; telemetry files are ASCII.
* The file system is a function from full paths to file contents; a path that cannot be
  opened has no content.
* An exception thrown by `std::stoull` or `std::stod` is the `error` case of `Except`; no
  function of the program catches one.
* `unsigned long long` values are naturals below `2 ^ 64`; subtraction wraps modulo `2 ^ 64`.
* `int` values are integers; the program only forms `COLS - 19` and the length of one line
  of a telemetry file, both far from the 32-bit range, so `int` arithmetic is not wrapped.
* A `double` is a value of `Dbl`: not-a-number, the two infinities, or a finite value given
  by the rational it denotes.  Arithmetic rounds to the nearest binary64 value, ties to even.
  Every double is a value of `Dbl`; a statement over all of `Dbl` therefore covers every
  double.  The sign of zero is not recorded: every divisor in the program is the conversion
  of an unsigned integer, so no quotient depends on it, and comparisons and the conversion
  to `int` do not see it.
* Behaviour the language leaves undefined (the conversion to `int` of a double that is not a
  number or is out of range) is the `none` case of `Option`.
* Calls into the terminal library are recorded as a list of commands in program order.
  Of their results only the one the program depends on is modelled: `resizeterm` leaves `COLS`
  unchanged when it rejects a geometry.  Signals are delivered between the statements of the
  loop, as the flags they set.
-/

namespace gpumon

/-! ## Binary64 arithmetic -/

/-- A value of the C++ type `double`. -/
inductive Dbl
  | nan
  | ninf
  | pinf
  | fin (q : ℚ)
deriving DecidableEq, Repr

/-- Round a rational to the nearest integer, a tie going to the even neighbour. -/
def roundHalfEven (y : ℚ) : ℤ :=
  if y - ⌊y⌋ < 1 / 2 then ⌊y⌋
  else if 1 / 2 < y - ⌊y⌋ then ⌊y⌋ + 1
  else if ⌊y⌋ % 2 = 0 then ⌊y⌋ else ⌊y⌋ + 1

/-- Exponent of the unit in the last place for a magnitude `a`: binary64 keeps 53 significant
bits, and below `2 ^ (-1022)` the spacing stays that of the smallest normal binade. -/
def ulpExp (a : ℚ) : ℤ := max (Int.log 2 a) (-1022) - 52

/-- The binary64 value nearest to `q` (round to nearest, ties to even); a result of magnitude
`2 ^ 1024` or more overflows to an infinity. -/
def roundQ (q : ℚ) : Dbl :=
  if 2 ^ (1024 : ℤ) ≤ (roundHalfEven (|q| / 2 ^ ulpExp |q|) : ℚ) * 2 ^ ulpExp |q| then
    (if q < 0 then Dbl.ninf else Dbl.pinf)
  else
    Dbl.fin (if q < 0 then -((roundHalfEven (|q| / 2 ^ ulpExp |q|) : ℚ) * 2 ^ ulpExp |q|)
      else (roundHalfEven (|q| / 2 ^ ulpExp |q|) : ℚ) * 2 ^ ulpExp |q|)

/-- The comparison `a < b` on doubles: false whenever an operand is not a number. -/
def Dbl.lt : Dbl → Dbl → Bool
  | Dbl.nan, _ => false
  | _, Dbl.nan => false
  | Dbl.ninf, Dbl.ninf => false
  | Dbl.ninf, _ => true
  | _, Dbl.ninf => false
  | Dbl.pinf, _ => false
  | Dbl.fin _, Dbl.pinf => true
  | Dbl.fin a, Dbl.fin b => decide (a < b)

/-- The comparison `a <= b` on doubles: false whenever an operand is not a number. -/
def Dbl.le : Dbl → Dbl → Bool
  | Dbl.nan, _ => false
  | _, Dbl.nan => false
  | Dbl.ninf, _ => true
  | _, Dbl.pinf => true
  | Dbl.pinf, _ => false
  | Dbl.fin _, Dbl.ninf => false
  | Dbl.fin a, Dbl.fin b => decide (a ≤ b)

/-- Conversion `static_cast<double>(u)` of an unsigned integer. -/
def u2d (u : ℕ) : Dbl := roundQ u

/-- Conversion of an `int` to `double` (the usual arithmetic conversion in `width * pc`). -/
def i2d (i : ℤ) : Dbl := roundQ i

/-- Sign of a finite operand with zero counted as positive. -/
def negative (q : ℚ) : Bool := decide (q < 0)

/-- Division of doubles. -/
def Dbl.div : Dbl → Dbl → Dbl
  | Dbl.nan, _ => Dbl.nan
  | _, Dbl.nan => Dbl.nan
  | Dbl.fin a, Dbl.fin b =>
      if b = 0 then (if a = 0 then Dbl.nan else if a < 0 then Dbl.ninf else Dbl.pinf)
      else roundQ (a / b)
  | Dbl.fin _, _ => Dbl.fin 0
  | Dbl.pinf, Dbl.fin b => if negative b then Dbl.ninf else Dbl.pinf
  | Dbl.ninf, Dbl.fin b => if negative b then Dbl.pinf else Dbl.ninf
  | _, _ => Dbl.nan

/-- Multiplication of doubles. -/
def Dbl.mul : Dbl → Dbl → Dbl
  | Dbl.nan, _ => Dbl.nan
  | _, Dbl.nan => Dbl.nan
  | Dbl.fin a, Dbl.fin b => roundQ (a * b)
  | Dbl.fin a, Dbl.pinf => if a = 0 then Dbl.nan else if a < 0 then Dbl.ninf else Dbl.pinf
  | Dbl.fin a, Dbl.ninf => if a = 0 then Dbl.nan else if a < 0 then Dbl.pinf else Dbl.ninf
  | Dbl.pinf, Dbl.fin b => if b = 0 then Dbl.nan else if b < 0 then Dbl.ninf else Dbl.pinf
  | Dbl.ninf, Dbl.fin b => if b = 0 then Dbl.nan else if b < 0 then Dbl.pinf else Dbl.ninf
  | Dbl.pinf, Dbl.pinf => Dbl.pinf
  | Dbl.ninf, Dbl.ninf => Dbl.pinf
  | Dbl.pinf, Dbl.ninf => Dbl.ninf
  | Dbl.ninf, Dbl.pinf => Dbl.ninf

/-- Subtraction of doubles. -/
def Dbl.sub : Dbl → Dbl → Dbl
  | Dbl.nan, _ => Dbl.nan
  | _, Dbl.nan => Dbl.nan
  | Dbl.fin a, Dbl.fin b => roundQ (a - b)
  | Dbl.fin _, Dbl.pinf => Dbl.ninf
  | Dbl.fin _, Dbl.ninf => Dbl.pinf
  | Dbl.pinf, Dbl.pinf => Dbl.nan
  | Dbl.ninf, Dbl.ninf => Dbl.nan
  | Dbl.pinf, _ => Dbl.pinf
  | Dbl.ninf, _ => Dbl.ninf

/-- Conversion `static_cast<int>(x)`: truncation toward zero.  The conversion is undefined
(`none`) when the truncated value is not an `int`, in particular for a not-a-number. -/
def to_int : Dbl → Option ℤ
  | Dbl.fin q =>
      if -(2 : ℤ) ^ 31 ≤ (if 0 ≤ q then ⌊q⌋ else ⌈q⌉) ∧ (if 0 ≤ q then ⌊q⌋ else ⌈q⌉) < 2 ^ 31
      then some (if 0 ≤ q then ⌊q⌋ else ⌈q⌉) else none
  | _ => none

/-- The library function `std::clamp(v, lo, hi)`: `lo` if `v < lo`, `hi` if `hi < v`,
otherwise `v`. -/
def clamp (v lo hi : Dbl) : Dbl :=
  if Dbl.lt v lo then lo else if Dbl.lt hi v then hi else v

/-! ## Text to number: `std::stoull`, `std::stod`, `std::to_string` -/

/-- The two exceptions `std::stoull` and `std::stod` throw. -/
inductive ParseError
  | invalid_argument
  | out_of_range
deriving DecidableEq, Repr

/-- White space in the C locale, skipped by `strtoull` and `strtod` before the number. -/
def isspace (c : Char) : Bool :=
  c = ' ' || c = '\t' || c = '\n' || c = Char.ofNat 11 || c = Char.ofNat 12 || c = '\r'

/-- Drop leading white space. -/
def skipSpace : List Char → List Char
  | [] => []
  | c :: cs => if isspace c then skipSpace cs else c :: cs

/-- Value of a decimal digit. -/
def digitVal (c : Char) : Option ℕ :=
  if '0' ≤ c ∧ c ≤ '9' then some (c.toNat - '0'.toNat) else none

/-- Value of a hexadecimal digit. -/
def hexVal (c : Char) : Option ℕ :=
  if '0' ≤ c ∧ c ≤ '9' then some (c.toNat - '0'.toNat)
  else if 'a' ≤ c ∧ c ≤ 'f' then some (c.toNat - 'a'.toNat + 10)
  else if 'A' ≤ c ∧ c ≤ 'F' then some (c.toNat - 'A'.toNat + 10)
  else none

/-- Read the longest run of digits in base `b`, continuing from the value `acc` and the
digit count `n`; returns the value, the count and the unread rest. -/
def readDigits (val : Char → Option ℕ) (b : ℕ) : List Char → ℕ → ℕ → ℕ × ℕ × List Char
  | [], acc, n => (acc, n, [])
  | c :: cs, acc, n =>
      match val c with
      | some d => readDigits val b cs (acc * b + d) (n + 1)
      | none => (acc, n, c :: cs)

/-- An optional sign: whether it was a minus, and the rest. -/
def readSign : List Char → Bool × List Char
  | '-' :: cs => (true, cs)
  | '+' :: cs => (false, cs)
  | cs => (false, cs)

/-- The library function `std::stoull(str)` in base 10: white space, an optional sign, then
the longest run of decimal digits; whatever follows the digits is ignored.  No digit gives
`invalid_argument`, a magnitude of `2 ^ 64` or more `out_of_range`; a minus sign negates
modulo `2 ^ 64`. -/
def stoull (str : String) : Except ParseError ℕ :=
  match readDigits digitVal 10 (readSign (skipSpace str.toList)).2 0 0 with
  | (v, n, _) =>
      if n = 0 then Except.error ParseError.invalid_argument
      else if 2 ^ 64 ≤ v then Except.error ParseError.out_of_range
      else Except.ok (if (readSign (skipSpace str.toList)).1 then (2 ^ 64 - v) % 2 ^ 64 else v)

/-- What `strtod` recognises after white space and sign. -/
inductive Magnitude
  | infinite
  | notANumber
  | value (q : ℚ)
deriving DecidableEq, Repr

/-- An optional exponent part: the marker `lo` or `up`, an optional sign and at least one
decimal digit.  Without a digit the marker is not part of the number and the exponent is 0. -/
def readExponent (lo up : Char) : List Char → ℤ
  | [] => 0
  | c :: cs =>
      if c = lo ∨ c = up then
        match readDigits digitVal 10 (readSign cs).2 0 0 with
        | (v, n, _) => if n = 0 then 0 else if (readSign cs).1 then -(v : ℤ) else (v : ℤ)
      else 0

/-- Digits with an optional radix point in base `b`: the value of all digits read as one
integer, how many digits were read in all, how many of them after the point, and the rest. -/
def readMantissa (val : Char → Option ℕ) (b : ℕ) (cs : List Char) : ℕ × ℕ × ℕ × List Char :=
  match readDigits val b cs 0 0 with
  | (ip, n1, '.' :: r1) =>
      (match readDigits val b r1 ip 0 with
       | (m, n2, r2) => (m, n1 + n2, n2, r2))
  | (ip, n1, r1) => (ip, n1, 0, r1)

/-- Lower-case form of an ASCII letter. -/
def lower (c : Char) : Char := if 'A' ≤ c ∧ c ≤ 'Z' then Char.ofNat (c.toNat + 32) else c

/-- The number forms of `strtod`: a hexadecimal significand after `0x` with an optional binary
exponent, a decimal significand with an optional decimal exponent, or `inf`, `infinity`, `nan`
in any letter case.  `none` when no form matches. -/
def readMagnitude (cs : List Char) : Option Magnitude :=
  match cs with
  | '0' :: x :: hs =>
      if (x = 'x' ∨ x = 'X') ∧ 0 < (readMantissa hexVal 16 hs).2.1 then
        match readMantissa hexVal 16 hs with
        | (m, _, frac, r) =>
            some (Magnitude.value ((m : ℚ) * 2 ^ (readExponent 'p' 'P' r - 4 * (frac : ℤ))))
      else
        match readMantissa digitVal 10 cs with
        | (m, _, frac, r) =>
            some (Magnitude.value ((m : ℚ) * 10 ^ (readExponent 'e' 'E' r - (frac : ℤ))))
  | _ =>
      if 0 < (readMantissa digitVal 10 cs).2.1 then
        match readMantissa digitVal 10 cs with
        | (m, _, frac, r) =>
            some (Magnitude.value ((m : ℚ) * 10 ^ (readExponent 'e' 'E' r - (frac : ℤ))))
      else if (cs.take 3).map lower = ['i', 'n', 'f'] then some Magnitude.infinite
      else if (cs.take 3).map lower = ['n', 'a', 'n'] then some Magnitude.notANumber
      else none

/-- The value nearest to the magnitude `a` among those with 53 significant bits and any
exponent: rounding as if the exponent range were unbounded. -/
def roundUnbounded (a : ℚ) : ℚ :=
  (roundHalfEven (a / 2 ^ (Int.log 2 a - 52)) : ℚ) * 2 ^ (Int.log 2 a - 52)

/-- The library function `std::stod(str)`: white space, an optional sign and the longest
number form; whatever follows is ignored.  No number form gives `invalid_argument`.  The
value is rounded to the nearest double.  `out_of_range` is raised when `strtod` reports a
range error: on overflow, and on an inexact result that is tiny, which the C library of the
x86 platform decides after rounding with an unbounded exponent. -/
def stod (str : String) : Except ParseError Dbl :=
  match readMagnitude (readSign (skipSpace str.toList)).2 with
  | none => Except.error ParseError.invalid_argument
  | some Magnitude.infinite =>
      Except.ok (if (readSign (skipSpace str.toList)).1 then Dbl.ninf else Dbl.pinf)
  | some Magnitude.notANumber => Except.ok Dbl.nan
  | some (Magnitude.value q) =>
      match roundQ (if (readSign (skipSpace str.toList)).1 then -q else q) with
      | Dbl.fin r =>
          if roundUnbounded q < 2 ^ (-1022 : ℤ) ∧ |r| ≠ q then
            Except.error ParseError.out_of_range
          else Except.ok (Dbl.fin r)
      | _ => Except.error ParseError.out_of_range

/-- The library function `std::to_string` on an unsigned integer: its decimal digits. -/
def to_string (u : ℕ) : String := toString u

/-! ## The telemetry source: class `device` -/

/-- The files the program can open, by full path: `none` when `std::ifstream` cannot open
the path, otherwise the content of the file. -/
abbrev Files := String → Option String

/-- The library call `std::getline(input, ret)`: the content up to the first line feed. -/
def getline (content : String) : String :=
  String.mk (content.toList.takeWhile (fun c => c != '\n'))

/-- The method `device::read_file`: the first line of `m_path + path`, or `"0"` when the
file cannot be opened. -/
def read_file (m_path : String) (fs : Files) (path : String) : String :=
  match fs (m_path ++ path) with
  | none => "0"
  | some content => getline content

/-- The data members of `device`. -/
structure device where
  m_path : String
  m_vram_str : String
  m_gtt_str : String
  m_vis_vram_str : String
  m_vram : ℕ
  m_gtt : ℕ
  m_vis_vram : ℕ
  m_power_min : ℕ
  m_power_max : ℕ
  m_temp_crit : ℕ
  m_fan_min : ℕ
  m_fan_max : ℕ
deriving DecidableEq, Repr

/-- The constructor `device::device(path)`: eight capacity files are read and parsed in
order; the first parse failure ends the construction with that exception. -/
def device.new (path : String) (fs : Files) : Except ParseError device := do
  let m_vram ← stoull (read_file path fs "mem_info_vram_total")
  let m_vram_str := "/" ++ to_string (m_vram / (1024 * 1024)) ++ "MiB"
  let m_gtt ← stoull (read_file path fs "mem_info_gtt_total")
  let m_gtt_str := "/" ++ to_string (m_gtt / (1024 * 1024)) ++ "MiB"
  let m_vis_vram ← stoull (read_file path fs "mem_info_vis_vram_total")
  let m_vis_vram_str := "/" ++ to_string (m_vis_vram / (1024 * 1024)) ++ "MiB"
  let m_power_min ← stoull (read_file path fs "hwmon/hwmon1/power1_cap_min")
  let m_power_max ← stoull (read_file path fs "hwmon/hwmon1/power1_cap_max")
  let m_temp_crit ← stoull (read_file path fs "hwmon/hwmon1/temp1_crit")
  let m_fan_min ← stoull (read_file path fs "hwmon/hwmon1/fan1_min")
  let m_fan_max ← stoull (read_file path fs "hwmon/hwmon1/fan1_max")
  pure { m_path := path, m_vram_str := m_vram_str, m_gtt_str := m_gtt_str,
         m_vis_vram_str := m_vis_vram_str, m_vram := m_vram, m_gtt := m_gtt,
         m_vis_vram := m_vis_vram, m_power_min := m_power_min, m_power_max := m_power_max,
         m_temp_crit := m_temp_crit, m_fan_min := m_fan_min, m_fan_max := m_fan_max }

/-- Subtraction of `unsigned long long` values: the difference modulo `2 ^ 64`. -/
def usub (a b : ℕ) : ℕ := (a + 2 ^ 64 - b % 2 ^ 64) % 2 ^ 64

/-- The literal `0.01` of `device::busy`. -/
def lit_001 : Dbl := roundQ (1 / 100)

/-- The method `device::busy`. -/
def busy (d : device) (fs : Files) : Except ParseError (String × Dbl) := do
  let pc := read_file d.m_path fs "gpu_busy_percent"
  let v ← stod pc
  pure (pc ++ "%", Dbl.mul v lit_001)

/-- The method `device::vram`. -/
def vram (d : device) (fs : Files) : Except ParseError (String × Dbl) := do
  let used := read_file d.m_path fs "mem_info_vram_used"
  let u ← stoull used
  let pc := Dbl.div (u2d u) (u2d d.m_vram)
  pure (to_string (u / (1024 * 1024)) ++ d.m_vram_str, pc)

/-- The method `device::gtt`. -/
def gtt (d : device) (fs : Files) : Except ParseError (String × Dbl) := do
  let used := read_file d.m_path fs "mem_info_gtt_used"
  let u ← stoull used
  let pc := Dbl.div (u2d u) (u2d d.m_gtt)
  pure (to_string (u / (1024 * 1024)) ++ d.m_gtt_str, pc)

/-- The method `device::vis_vram`. -/
def vis_vram (d : device) (fs : Files) : Except ParseError (String × Dbl) := do
  let used := read_file d.m_path fs "mem_info_vis_vram_used"
  let u ← stoull used
  let pc := Dbl.div (u2d u) (u2d d.m_vis_vram)
  pure (to_string (u / (1024 * 1024)) ++ d.m_vis_vram_str, pc)

/-- The method `device::power`. -/
def power (d : device) (fs : Files) : Except ParseError (String × Dbl) := do
  let pwr := read_file d.m_path fs "hwmon/hwmon1/power1_average"
  let p ← stoull pwr
  let range := u2d (usub d.m_power_max d.m_power_min)
  let pc := Dbl.div (u2d (usub p d.m_power_min)) range
  pure (to_string (p / 1000000) ++ "W", pc)

/-- The method `device::temperature`. -/
def temperature (d : device) (fs : Files) : Except ParseError (String × Dbl) := do
  let temp := read_file d.m_path fs "hwmon/hwmon1/temp1_input"
  let t ← stoull temp
  let pc := Dbl.div (u2d t) (u2d d.m_temp_crit)
  pure (to_string (t / 1000) ++ "C", pc)

/-- The method `device::fan`. -/
def fan (d : device) (fs : Files) : Except ParseError (String × Dbl) := do
  let f := read_file d.m_path fs "hwmon/hwmon1/fan1_input"
  let range := u2d (usub d.m_fan_max d.m_fan_min)
  let v ← stod f
  let pc := Dbl.div (Dbl.sub v (u2d d.m_fan_min)) range
  pure (f ++ "RPM", pc)

/-- The method `device::voltage`. -/
def voltage (d : device) (fs : Files) : String :=
  read_file d.m_path fs "hwmon/hwmon1/in0_input" ++ "mV"

/-- The method `device::gfx_clock`. -/
def gfx_clock (d : device) (fs : Files) : Except ParseError String := do
  let freq := read_file d.m_path fs "hwmon/hwmon1/freq1_input"
  let f ← stoull freq
  pure (to_string (f / 1000000) ++ "MHz")

/-- The method `device::mem_clock`. -/
def mem_clock (d : device) (fs : Files) : Except ParseError String := do
  let freq := read_file d.m_path fs "hwmon/hwmon1/freq2_input"
  let f ← stoull freq
  pure (to_string (f / 1000000) ++ "MHz")

/-- The method `device::link_speed`. -/
def link_speed (d : device) (fs : Files) : String :=
  read_file d.m_path fs "current_link_speed"

/-- The method `device::link_width`. -/
def link_width (d : device) (fs : Files) : String :=
  "x" ++ read_file d.m_path fs "current_link_width"

/-! ## The renderer: `draw_bar`, `draw_labels`, `handle_winch` -/

/-- The enumeration `color::type`, the colour pairs 1 to 5. -/
inductive color.type
  | label
  | value
  | ok
  | warn
  | bad
deriving DecidableEq, Repr

/-- Position of a colour in the tier order ok, warn, bad (0 for the two text colours). -/
def color.type.rank : color.type → ℕ
  | color.type.warn => 1
  | color.type.bad => 2
  | _ => 0

/-- A video attribute handed to `attron` and `attroff`. -/
inductive Attr
  | normal
  | A_BOLD
  | COLOR_PAIR (c : color.type)
deriving DecidableEq, Repr

/-- A call into the terminal library. -/
inductive Cmd
  | move (row col : ℤ)
  | clrtoeol
  | attron (a : Attr)
  | attroff (a : Attr)
  | addch (c : Char)
  | addstr (str : String)
  | mvaddstr (row col : ℤ) (str : String)
  | resizeterm (lines cols : ℕ)
  | clear
deriving DecidableEq, Repr

/-- The function `set_color`; `use_color` is the flag `color::use_color`. -/
def set_color (use_color : Bool) (c : color.type) : List Cmd :=
  if use_color then [Cmd.attron (Attr.COLOR_PAIR c)] else []

/-- The function `remove_color`. -/
def remove_color (use_color : Bool) (c : color.type) : List Cmd :=
  if use_color then [Cmd.attroff (Attr.COLOR_PAIR c)] else []

/-- The member `std::string::c_str` as a C library function reads it: the bytes before the
first NUL byte. -/
def c_str (str : String) : String :=
  String.mk (str.toList.takeWhile (fun c => c != Char.ofNat 0))

/-- The function `print_string`; `addstr` is handed `str.c_str()`. -/
def print_string (use_color : Bool) (c : color.type) (str : String) (attr : Attr) : List Cmd :=
  [Cmd.attron attr] ++ set_color use_color c ++ [Cmd.addstr (c_str str)]
    ++ remove_color use_color c ++ [Cmd.attroff attr]

/-- The literal `0.33` of `draw_bar`. -/
def lit_033 : Dbl := roundQ (33 / 100)

/-- The literal `0.67` of `draw_bar`. -/
def lit_067 : Dbl := roundQ (67 / 100)

/-- The colour `bar_color` that `draw_bar` selects for the fraction `pc`. -/
def bar_color (pc : Dbl) : color.type :=
  if Dbl.lt pc lit_033 then color.type.ok
  else if Dbl.lt pc lit_067 then color.type.warn
  else color.type.bad

/-- The value `static_cast<int>(width * pc)` that `draw_bar` stores in `bars`, computed from
the arguments of the call: `pc` is clamped and `width` reduced by `2 + str.size()` first. -/
def bars (width : ℤ) (pc : Dbl) (str : String) : Option ℤ :=
  to_int (Dbl.mul (i2d (width - (2 + (str.length : ℤ)))) (clamp pc (Dbl.fin 0) (Dbl.fin 1)))

/-- The function `draw_bar`: the terminal calls it makes, or `none` when the conversion of
`width * pc` to `int` is undefined. -/
def draw_bar (use_color : Bool) (row col width : ℤ) (pc : Dbl) (str : String) :
    Option (List Cmd) :=
  match bars width pc str with
  | none => none
  | some n =>
      if n < 0 then some [Cmd.move row col, Cmd.clrtoeol]
      else some ([Cmd.move row col, Cmd.clrtoeol,
        Cmd.attron Attr.A_BOLD, Cmd.addch '[', Cmd.attroff Attr.A_BOLD]
        ++ print_string use_color (bar_color (clamp pc (Dbl.fin 0) (Dbl.fin 1)))
            (String.mk (List.replicate n.toNat '|')) Attr.normal
        ++ [Cmd.move row (col + (width - (2 + (str.length : ℤ))) + 1), Cmd.attron Attr.A_BOLD]
        ++ print_string use_color color.type.value str Attr.normal
        ++ [Cmd.addch ']', Cmd.attroff Attr.A_BOLD])

/-- The constant `vpad`. -/
def vpad : ℤ := 1

/-- The constant `hpad`. -/
def hpad : ℤ := 2

/-- The function `draw_labels`. -/
def draw_labels (use_color : Bool) : List Cmd :=
  set_color use_color color.type.label
    ++ [Cmd.mvaddstr (vpad - 1 + 1) hpad "GPU busy:",
        Cmd.mvaddstr (vpad - 1 + 2) hpad "GPU vram:",
        Cmd.mvaddstr (vpad - 1 + 3) hpad "GTT:",
        Cmd.mvaddstr (vpad - 1 + 4) hpad "CPU Vis:",
        Cmd.mvaddstr (vpad - 1 + 5) hpad "Power draw:",
        Cmd.mvaddstr (vpad - 1 + 6) hpad "Temperature:",
        Cmd.mvaddstr (vpad - 1 + 7) hpad "Fan speed:",
        Cmd.mvaddstr (vpad - 1 + 8) hpad "Voltage:",
        Cmd.mvaddstr (vpad - 1 + 9) hpad "GFX clock:",
        Cmd.mvaddstr (vpad - 1 + 10) hpad "Mem clock:",
        Cmd.mvaddstr (vpad - 1 + 11) hpad "Link speed:",
        Cmd.mvaddstr (vpad - 1 + 12) hpad "Link width:"]
    ++ remove_color use_color color.type.label

/-- The structure `winsize` as `ioctl(0, TIOCGWINSZ, &w)` fills it. -/
structure winsize where
  ws_row : ℕ
  ws_col : ℕ
deriving DecidableEq, Repr

/-- The function `handle_winch`, for the window size `w` that `ioctl` reported. -/
def handle_winch (use_color : Bool) (w : winsize) : List Cmd :=
  [Cmd.resizeterm w.ws_row w.ws_col, Cmd.clear] ++ draw_labels use_color

/-! ## The loop of `main` -/

/-- The constant `end_of_transmission`. -/
def end_of_transmission : ℤ := 4

/-- The constant `escape`. -/
def escape : ℤ := 27

/-- The constant `text_len` of `main`. -/
def text_len : ℤ := 13 + hpad

/-- The signal numbers the handler tells apart. -/
inductive Signal
  | SIGINT
  | SIGTERM
  | SIGWINCH
  | other
deriving DecidableEq, Repr

/-- What the loop keeps between iterations: the two flags written by the signal handler and
the column count `COLS` of the terminal library. -/
structure LoopState where
  should_close : ℤ
  should_resize : ℤ
  COLS : ℤ
deriving DecidableEq, Repr

/-- The function `signal_handler`. -/
def signal_handler (sig : Signal) (s : LoopState) : LoopState :=
  match sig with
  | Signal.SIGINT => { s with should_close := 1 }
  | Signal.SIGTERM => { s with should_close := 1 }
  | Signal.SIGWINCH => { s with should_resize := 1 }
  | Signal.other => s

/-- What surrounds one iteration: the telemetry files, the window size `ioctl` would report,
the value `getch` returns (`-1` on timeout), and the signals delivered during the iteration
in order of arrival: `early` those that arrive after `should_resize` has been tested and
before the conditional statement that calls `handle_winch` is left, `signals` those that
arrive from then until the loop condition is tested again. -/
structure Env where
  files : Files
  ws : winsize
  key : ℤ
  early : List Signal
  signals : List Signal

/-- A statement executed by the body of the loop of `main`, with the values of its
arguments. -/
inductive Action
  | handle_winch (w : winsize)
  | clear_should_resize
  | draw_bar (row col width : ℤ) (pc : Dbl) (str : String)
  | move (row col : ℤ)
  | clrtoeol
  | print_string (c : color.type) (str : String) (attr : Attr)
  | refresh
  | getch
  | endwin
deriving DecidableEq, Repr

/-- Run the statements of a sequence until one throws: the actions executed, and the
exception if there was one. -/
def sequence : List (Except ParseError (List Action)) → List Action × Option ParseError
  | [] => ([], none)
  | Except.error e :: _ => ([], some e)
  | Except.ok acts :: rest => (acts ++ (sequence rest).1, (sequence rest).2)

/-- The statement pair `auto [str, pc] = dev.metric(); draw_bar(++row, text_len, bar_width,
pc, str);` for one metric. -/
def bar_row (row bar_width : ℤ) (reading : Except ParseError (String × Dbl)) :
    Except ParseError (List Action) :=
  reading.map (fun r => [Action.draw_bar row text_len bar_width r.2 r.1])

/-- The statements `move(++row, text_len); clrtoeol(); print_string(color::type::label,
dev.metric(), A_BOLD);` for one text metric: the cursor is moved before the metric is read. -/
def text_row (row : ℤ) (reading : Except ParseError String) :
    List (Except ParseError (List Action)) :=
  [Except.ok [Action.move row text_len, Action.clrtoeol],
   reading.map (fun str => [Action.print_string color.type.label str Attr.A_BOLD])]

/-- The twelve rows painted by one iteration with the bar width `bar_width`, in order. -/
def paint (d : device) (fs : Files) (bar_width : ℤ) : List Action × Option ParseError :=
  sequence
    ([bar_row (vpad - 1 + 1) bar_width (busy d fs),
      bar_row (vpad - 1 + 2) bar_width (vram d fs),
      bar_row (vpad - 1 + 3) bar_width (gtt d fs),
      bar_row (vpad - 1 + 4) bar_width (vis_vram d fs),
      bar_row (vpad - 1 + 5) bar_width (power d fs),
      bar_row (vpad - 1 + 6) bar_width (temperature d fs),
      bar_row (vpad - 1 + 7) bar_width (fan d fs)]
     ++ text_row (vpad - 1 + 8) (Except.ok (voltage d fs))
     ++ text_row (vpad - 1 + 9) (gfx_clock d fs)
     ++ text_row (vpad - 1 + 10) (mem_clock d fs)
     ++ text_row (vpad - 1 + 11) (Except.ok (link_speed d fs))
     ++ text_row (vpad - 1 + 12) (Except.ok (link_width d fs)))

/-- The value of `COLS` after the library call `resizeterm(lines, cols)`: the call fails and
changes nothing unless both dimensions are positive; `handle_winch` ignores its result. -/
def resizeterm (lines cols : ℕ) (COLS : ℤ) : ℤ :=
  if 0 < lines ∧ 0 < cols then (cols : ℤ) else COLS

/-- The first statement of the loop body, the conditional call of `handle_winch()`
followed by `should_resize = 0` when `should_resize` is set: the actions and the state after it.
A `SIGWINCH` that arrives while `handle_winch` runs is erased by the assignment. -/
def resize_step (w : winsize) (early : List Signal) (s : LoopState) : List Action × LoopState :=
  if s.should_resize ≠ 0 then
    ([Action.handle_winch w, Action.clear_should_resize],
     { early.foldl (fun st sig => signal_handler sig st) s with
       should_resize := 0, COLS := resizeterm w.ws_row w.ws_col s.COLS })
  else ([], early.foldl (fun st sig => signal_handler sig st) s)

/-- The body of the loop up to and including `getch()`: the actions executed and, unless a
telemetry read threw, the state when the loop condition is tested next. -/
def body (d : device) (env : Env) (s : LoopState) : List Action × Except ParseError LoopState :=
  match paint d env.files ((resize_step env.ws env.early s).2.COLS - text_len - hpad) with
  | (rows, some e) => ((resize_step env.ws env.early s).1 ++ rows, Except.error e)
  | (rows, none) =>
      ((resize_step env.ws env.early s).1 ++ rows ++ [Action.refresh, Action.getch],
       Except.ok (env.signals.foldl (fun st sig => signal_handler sig st)
        (resize_step env.ws env.early s).2))

/-- The states of the run named by the specification. -/
inductive Phase
  | Running
  | Terminating
deriving DecidableEq, Repr

/-- The control decision after `getch` returned `key`: `break` on a quit key, otherwise the
loop condition `!should_close` is evaluated. -/
def after_poll (key should_close : ℤ) : Phase :=
  if key = ('q'.toNat : ℤ) ∨ key = end_of_transmission ∨ key = escape then Phase.Terminating
  else if should_close ≠ 0 then Phase.Terminating
  else Phase.Running

/-- How a run ends: the loop was left and `main` returned `EXIT_SUCCESS`, an exception left
`main`, or the given environment ended with the loop still running in the given state. -/
inductive Outcome
  | exit_success
  | thrown (e : ParseError)
  | running (s : LoopState)
deriving DecidableEq, Repr

/-- Iterations of the loop, entered in phase `Running` (the loop condition has been found
true), one per element of the environment. -/
def iterate (d : device) : List Env → LoopState → List Action × Outcome
  | [], s => ([], Outcome.running s)
  | env :: rest, s =>
      match body d env s with
      | (acts, Except.error e) => (acts, Outcome.thrown e)
      | (acts, Except.ok s1) =>
          match after_poll env.key s1.should_close with
          | Phase.Terminating => (acts ++ [Action.endwin], Outcome.exit_success)
          | Phase.Running => (acts ++ (iterate d rest s1).1, (iterate d rest s1).2)

/-- The loop `while (!should_close)` of `main` followed by `endwin()`. -/
def main_loop (d : device) (envs : List Env) (s : LoopState) : List Action × Outcome :=
  if s.should_close ≠ 0 then ([Action.endwin], Outcome.exit_success) else iterate d envs s

/-- The device directory `main` hands to the constructor. -/
def card0 : String := "/sys/class/drm/card0/device/"

/-- A system in which no telemetry file can be opened. -/
def no_files : Files := fun _ => none

/-- The device the constructor builds when every capacity file reads as `"0"`. -/
def zero_device (path : String) : device :=
  { m_path := path, m_vram_str := "/0MiB", m_gtt_str := "/0MiB", m_vis_vram_str := "/0MiB",
    m_vram := 0, m_gtt := 0, m_vis_vram := 0, m_power_min := 0, m_power_max := 0,
    m_temp_crit := 0, m_fan_min := 0, m_fan_max := 0 }

/-- A system that holds the three power files with the given content and no other file. -/
def power_files (average cap_min cap_max : String) : Files := fun p =>
  if p = card0 ++ "hwmon/hwmon1/power1_average" then some average
  else if p = card0 ++ "hwmon/hwmon1/power1_cap_min" then some cap_min
  else if p = card0 ++ "hwmon/hwmon1/power1_cap_max" then some cap_max
  else none

/-- A system that holds the two files of the VRAM pool with the given content and no other
file. -/
def vram_files (used total : String) : Files := fun p =>
  if p = card0 ++ "mem_info_vram_used" then some used
  else if p = card0 ++ "mem_info_vram_total" then some total
  else none

/-- An iteration over a system without telemetry files in which `getch` returns `key`, the
signals `signals` arrive and `ioctl` would report 24 rows of 80 columns. -/
def idle_env (key : ℤ) (signals : List Signal) : Env :=
  { files := no_files, ws := { ws_row := 24, ws_col := 80 }, key := key, early := [],
    signals := signals }

/-- A system that holds the fan speed file with the given content and no other file. -/
def fan_files (input : String) : Files := fun p =>
  if p = card0 ++ "hwmon/hwmon1/fan1_input" then some input else none

/-! ## Predicates used in the statements -/

/-- The reading the specification describes for a memory pool of which `u` bytes of `t` are
in use: the display is `u` in MiB, a slash, `t` in MiB and the unit (both by integer
division by 1,048,576), and the fraction is used over total on the raw byte counts. -/
def spec_memory_reading (u t : ℕ) : String × Dbl :=
  (to_string (u / 1048576) ++ ("/" ++ to_string (t / 1048576) ++ "MiB"),
   Dbl.div (u2d u) (u2d t))

/-! ## Facts about rounding -/

theorem roundHalfEven_eq_of_near {y : ℚ} {m : ℤ} (h : |y - m| < 1 / 2) :
    roundHalfEven y = m := by
  rw [abs_lt] at h
  obtain ⟨h1, h2⟩ := h
  unfold roundHalfEven
  rcases le_or_lt (m : ℚ) y with hy | hy
  · have hf : ⌊y⌋ = m := by
      rw [Int.floor_eq_iff]
      constructor <;> linarith
    rw [hf, if_pos (by linarith)]
  · have hf : ⌊y⌋ = m - 1 := by
      rw [Int.floor_eq_iff]
      push_cast
      constructor <;> linarith
    rw [hf]
    push_cast
    rw [if_neg (by linarith), if_pos (by linarith)]
    ring

theorem int_log_two_eq {a : ℚ} {k : ℤ} (h1 : (2 : ℚ) ^ k ≤ a) (h2 : a < (2 : ℚ) ^ (k + 1)) :
    Int.log 2 a = k := by
  have ha : 0 < a := lt_of_lt_of_le (by positivity) h1
  have hb : 1 < 2 := by norm_num
  have l1 : k ≤ Int.log 2 a := (Int.zpow_le_iff_le_log hb ha).1 (by exact_mod_cast h1)
  have l2 : Int.log 2 a < k + 1 := (Int.lt_zpow_iff_log_lt hb ha).1 (by exact_mod_cast h2)
  omega

theorem roundQ_zero : roundQ 0 = Dbl.fin 0 := by
  have h : ¬ ((2 : ℚ) ^ (1024 : ℤ) ≤ 0) := not_le.2 (by positivity)
  simp [roundQ, roundHalfEven, h]

/-- A positive value in the normal binade `[2 ^ k, 2 ^ (k + 1))` whose scaled significand is
within a half of the integer `m` rounds to `m * 2 ^ (k - 52)`. -/
theorem roundQ_eq_of_near {q : ℚ} {k m : ℤ} (hk : -1022 ≤ k) (h1 : (2 : ℚ) ^ k ≤ q)
    (h2 : q < (2 : ℚ) ^ (k + 1)) (hm : |q / 2 ^ (k - 52) - m| < 1 / 2)
    (hfin : (m : ℚ) * 2 ^ (k - 52) < 2 ^ (1024 : ℤ)) :
    roundQ q = Dbl.fin ((m : ℚ) * 2 ^ (k - 52)) := by
  have hq : 0 < q := lt_of_lt_of_le (by positivity) h1
  have habs : |q| = q := abs_of_pos hq
  have hu : ulpExp q = k - 52 := by
    unfold ulpExp
    rw [int_log_two_eq h1 h2, max_eq_left hk]
  unfold roundQ
  rw [habs, hu, roundHalfEven_eq_of_near hm, if_neg (not_le.2 hfin), if_neg (not_lt.2 hq.le)]

theorem roundQ_half : roundQ (1 / 2) = Dbl.fin (1 / 2) := by
  have h := @roundQ_eq_of_near (1 / 2) (-1) (2 ^ 52) (by norm_num) (by norm_num) (by norm_num)
    (by norm_num) (by norm_num)
  rw [h]
  norm_num

theorem lit_001_eq : lit_001 = Dbl.fin (5764607523034235 / 2 ^ 59) := by
  have h := @roundQ_eq_of_near (1 / 100) (-7) 5764607523034235 (by norm_num) (by norm_num)
    (by norm_num) (by norm_num [abs_lt]) (by norm_num)
  rw [lit_001, h]
  norm_num

theorem lit_033_eq : lit_033 = Dbl.fin (5944751508129055 / 2 ^ 54) := by
  have h := @roundQ_eq_of_near (33 / 100) (-2) 5944751508129055 (by norm_num) (by norm_num)
    (by norm_num) (by norm_num [abs_lt]) (by norm_num)
  rw [lit_033, h]
  norm_num

theorem lit_067_eq : lit_067 = Dbl.fin (6034823500676465 / 2 ^ 53) := by
  have h := @roundQ_eq_of_near (67 / 100) (-1) 6034823500676465 (by norm_num) (by norm_num)
    (by norm_num) (by norm_num [abs_lt]) (by norm_num)
  rw [lit_067, h]
  norm_num

theorem roundQ_natCast {n : ℕ} (hn : n < 2 ^ 53) : roundQ (n : ℚ) = Dbl.fin n := by
  rcases Nat.eq_zero_or_pos n with h0 | hpos
  · subst h0
    simpa using roundQ_zero
  · have hne : n ≠ 0 := Nat.pos_iff_ne_zero.1 hpos
    have hlo : 2 ^ Nat.log 2 n ≤ n := Nat.pow_log_le_self 2 hne
    have hhi : n < 2 ^ (Nat.log 2 n + 1) := Nat.lt_pow_succ_log_self (by norm_num) n
    have hk : Nat.log 2 n < 53 := Nat.log_lt_of_lt_pow hne hn
    obtain ⟨d, hd⟩ : ∃ d : ℕ, Nat.log 2 n + d = 52 := ⟨52 - Nat.log 2 n, by omega⟩
    have hz : ((Nat.log 2 n : ℕ) : ℤ) - 52 = -(d : ℤ) := by omega
    have h2d : (0 : ℚ) < 2 ^ d := by positivity
    have hnq : (n : ℚ) < 2 ^ 53 := by exact_mod_cast hn
    have key := @roundQ_eq_of_near (n : ℚ) (Nat.log 2 n : ℤ) ((n * 2 ^ d : ℕ) : ℤ) (by omega)
      (by rw [zpow_natCast]; exact_mod_cast hlo)
      (by
        have : ((Nat.log 2 n : ℕ) : ℤ) + 1 = ((Nat.log 2 n + 1 : ℕ) : ℤ) := by push_cast; ring
        rw [this, zpow_natCast]; exact_mod_cast hhi)
      (by
        rw [hz, zpow_neg, zpow_natCast, div_inv_eq_mul]
        push_cast
        simp)
      (by
        rw [hz, zpow_neg, zpow_natCast]
        push_cast
        rw [mul_assoc, mul_inv_cancel₀ h2d.ne', mul_one]
        calc (n : ℚ) < 2 ^ 53 := hnq
          _ < 2 ^ (1024 : ℤ) := by norm_num)
    rw [key, hz, zpow_neg, zpow_natCast]
    push_cast
    rw [mul_assoc, mul_inv_cancel₀ h2d.ne', mul_one]

theorem roundQ_neg_of_pos {q r : ℚ} (hq : 0 < q) (h : roundQ q = Dbl.fin r) :
    roundQ (-q) = Dbl.fin (-r) := by
  unfold roundQ at h ⊢
  rw [abs_neg]
  have hneg : -q < 0 := by linarith
  have hnn : ¬ q < 0 := not_lt.2 hq.le
  split_ifs at h ⊢ with h1
  injection h with h
  rw [h]

theorem u2d_eq {n : ℕ} (hn : n < 2 ^ 53) : u2d n = Dbl.fin n := roundQ_natCast hn

theorem i2d_eq {i : ℤ} (hi : |i| < 2 ^ 53) : i2d i = Dbl.fin i := by
  unfold i2d
  rcases le_or_lt 0 i with h | h
  · obtain ⟨n, rfl⟩ := Int.eq_ofNat_of_zero_le h
    have hn : n < 2 ^ 53 := by
      rw [abs_of_nonneg h] at hi
      exact_mod_cast hi
    simpa using roundQ_natCast hn
  · obtain ⟨n, hn⟩ := Int.eq_ofNat_of_zero_le (show 0 ≤ -i by omega)
    have hn2 : n < 2 ^ 53 := by
      rw [abs_of_neg h, hn] at hi
      exact_mod_cast hi
    have hi2 : i = -(n : ℤ) := by omega
    have hpos : (0 : ℚ) < (n : ℚ) := by
      have : 0 < n := by omega
      exact_mod_cast this
    have := roundQ_neg_of_pos hpos (roundQ_natCast hn2)
    rw [hi2]
    push_cast
    exact this

theorem roundHalfEven_nonneg {y : ℚ} (hy : 0 ≤ y) : 0 ≤ roundHalfEven y := by
  have hf : 0 ≤ ⌊y⌋ := Int.floor_nonneg.2 hy
  unfold roundHalfEven
  split_ifs <;> omega

theorem roundHalfEven_le_of_le_int {y : ℚ} {W : ℤ} (h : y ≤ W) : roundHalfEven y ≤ W := by
  have hfl : ⌊y⌋ ≤ W := by
    have : (⌊y⌋ : ℚ) ≤ W := le_trans (Int.floor_le y) h
    exact_mod_cast this
  have hstep : (⌊y⌋ : ℚ) < y → ⌊y⌋ + 1 ≤ W := by
    intro hlt
    have : (⌊y⌋ : ℚ) < W := lt_of_lt_of_le hlt h
    have : ⌊y⌋ < W := by exact_mod_cast this
    omega
  unfold roundHalfEven
  split_ifs with h1 h2 h3
  · exact hfl
  · exact hstep (by linarith)
  · exact hfl
  · exact hstep (by linarith)

/-- Rounding does not leave an interval `[0, w]` whose upper end is an integer that a double
holds exactly. -/
theorem roundQ_bounds {x : ℚ} {w : ℕ} (hx0 : 0 ≤ x) (hxw : x ≤ w) (hw : w < 2 ^ 53) :
    ∃ r, roundQ x = Dbl.fin r ∧ 0 ≤ r ∧ r ≤ w := by
  rcases eq_or_lt_of_le hx0 with h0 | hpos
  · subst h0
    exact ⟨0, roundQ_zero, le_refl _, hxw⟩
  · have hwq : (w : ℚ) < 2 ^ (53 : ℤ) := by
      have h53 : (w : ℚ) < 2 ^ 53 := by exact_mod_cast hw
      have hz : (2 : ℚ) ^ (53 : ℤ) = 2 ^ 53 := by norm_num
      rw [hz]
      exact h53
    have hlog : Int.log 2 x < 53 :=
      (Int.lt_zpow_iff_log_lt (by norm_num : 1 < 2) hpos).1
        (by exact_mod_cast lt_of_le_of_lt hxw hwq)
    have he : ulpExp x ≤ 0 := by
      unfold ulpExp
      have : max (Int.log 2 x) (-1022) ≤ 52 := max_le (by omega) (by norm_num)
      omega
    obtain ⟨n, hn⟩ : ∃ n : ℕ, ulpExp x = -(n : ℤ) := ⟨(-ulpExp x).toNat, by omega⟩
    have h2n : (0 : ℚ) < 2 ^ n := by positivity
    have hy : x / 2 ^ ulpExp x = x * 2 ^ n := by
      rw [hn, zpow_neg, zpow_natCast, div_inv_eq_mul]
    have hm0 : 0 ≤ roundHalfEven (x * 2 ^ n) := roundHalfEven_nonneg (by positivity)
    have hmW : roundHalfEven (x * 2 ^ n) ≤ ((w * 2 ^ n : ℕ) : ℤ) := by
      apply roundHalfEven_le_of_le_int
      push_cast
      exact mul_le_mul_of_nonneg_right hxw h2n.le
    have hr0 : (0 : ℚ) ≤ (roundHalfEven (x * 2 ^ n) : ℚ) * 2 ^ ulpExp x := by
      have : (0 : ℚ) ≤ (roundHalfEven (x * 2 ^ n) : ℚ) := by exact_mod_cast hm0
      positivity
    have hrw : (roundHalfEven (x * 2 ^ n) : ℚ) * 2 ^ ulpExp x ≤ w := by
      rw [hn, zpow_neg, zpow_natCast, ← div_eq_mul_inv, div_le_iff₀ h2n]
      have : (roundHalfEven (x * 2 ^ n) : ℚ) ≤ ((w * 2 ^ n : ℕ) : ℤ) := by exact_mod_cast hmW
      simpa using this
    refine ⟨(roundHalfEven (x * 2 ^ n) : ℚ) * 2 ^ ulpExp x, ?_, hr0, hrw⟩
    unfold roundQ
    rw [abs_of_pos hpos, hy, if_neg, if_neg (not_lt.2 hx0)]
    rw [not_le]
    calc (roundHalfEven (x * 2 ^ n) : ℚ) * 2 ^ ulpExp x ≤ w := hrw
      _ < 2 ^ (53 : ℤ) := hwq
      _ < 2 ^ (1024 : ℤ) := by norm_num

/-! ## Reading text -/

theorem stoull_zero : stoull "0" = Except.ok 0 := rfl

theorem stod_zero : stod "0" = Except.ok (Dbl.fin 0) := by
  have h : readMagnitude (readSign (skipSpace "0".toList)).2
      = some (Magnitude.value (((0 : ℕ) : ℚ) * 10 ^ ((0 : ℤ) - ((0 : ℕ) : ℤ)))) := rfl
  unfold stod
  rw [h]
  have hs : (readSign (skipSpace "0".toList)).1 = false := rfl
  simp [hs, roundQ_zero]

/-! ## C1: the sentinel policy -/

theorem read_file_sentinel (path : String) (fs : Files) (h : ∀ name, fs (path ++ name) = none)
    (name : String) : read_file path fs name = "0" := by
  simp [read_file, h]

theorem u2d_zero : u2d 0 = Dbl.fin 0 := by
  simpa [u2d] using roundQ_zero

theorem device_new_sentinel (path : String) (fs : Files)
    (h : ∀ name, fs (path ++ name) = none) :
    device.new path fs = Except.ok (zero_device path) := by
  simp only [device.new, read_file_sentinel path fs h, stoull_zero]
  rfl

theorem busy_sentinel (path : String) (fs : Files) (h : ∀ name, fs (path ++ name) = none) :
    busy (zero_device path) fs = Except.ok ("0%", Dbl.fin 0) := by
  have hm : Dbl.mul (Dbl.fin 0) lit_001 = Dbl.fin 0 := by
    simp [lit_001_eq, Dbl.mul, roundQ_zero]
  simp only [busy, zero_device, read_file_sentinel path fs h, stod_zero]
  simp [hm, bind, Except.bind, pure, Except.pure]

theorem vram_sentinel (path : String) (fs : Files) (h : ∀ name, fs (path ++ name) = none) :
    vram (zero_device path) fs = Except.ok ("0/0MiB", Dbl.nan) := by
  have hs : to_string (0 / (1024 * 1024)) = "0" := rfl
  simp only [vram, zero_device, read_file_sentinel path fs h, stoull_zero]
  simp [hs, u2d_zero, Dbl.div, bind, Except.bind, pure, Except.pure]

theorem gtt_sentinel (path : String) (fs : Files) (h : ∀ name, fs (path ++ name) = none) :
    gtt (zero_device path) fs = Except.ok ("0/0MiB", Dbl.nan) := by
  have hs : to_string (0 / (1024 * 1024)) = "0" := rfl
  simp only [gtt, zero_device, read_file_sentinel path fs h, stoull_zero]
  simp [hs, u2d_zero, Dbl.div, bind, Except.bind, pure, Except.pure]

theorem vis_vram_sentinel (path : String) (fs : Files) (h : ∀ name, fs (path ++ name) = none) :
    vis_vram (zero_device path) fs = Except.ok ("0/0MiB", Dbl.nan) := by
  have hs : to_string (0 / (1024 * 1024)) = "0" := rfl
  simp only [vis_vram, zero_device, read_file_sentinel path fs h, stoull_zero]
  simp [hs, u2d_zero, Dbl.div, bind, Except.bind, pure, Except.pure]

theorem power_sentinel (path : String) (fs : Files) (h : ∀ name, fs (path ++ name) = none) :
    power (zero_device path) fs = Except.ok ("0W", Dbl.nan) := by
  have hz : usub 0 0 = 0 := rfl
  have hs : to_string (0 / 1000000) = "0" := rfl
  simp only [power, zero_device, read_file_sentinel path fs h, stoull_zero]
  simp [hs, hz, u2d_zero, Dbl.div, bind, Except.bind, pure, Except.pure]

theorem temperature_sentinel (path : String) (fs : Files)
    (h : ∀ name, fs (path ++ name) = none) :
    temperature (zero_device path) fs = Except.ok ("0C", Dbl.nan) := by
  have hs : to_string (0 / 1000) = "0" := rfl
  simp only [temperature, zero_device, read_file_sentinel path fs h, stoull_zero]
  simp [hs, u2d_zero, Dbl.div, bind, Except.bind, pure, Except.pure]

theorem fan_sentinel (path : String) (fs : Files) (h : ∀ name, fs (path ++ name) = none) :
    fan (zero_device path) fs = Except.ok ("0RPM", Dbl.nan) := by
  have hz : usub 0 0 = 0 := rfl
  simp only [fan, zero_device, read_file_sentinel path fs h, stod_zero]
  simp [hz, u2d_zero, Dbl.div, Dbl.sub, roundQ_zero, bind, Except.bind, pure, Except.pure]

theorem gfx_clock_sentinel (path : String) (fs : Files)
    (h : ∀ name, fs (path ++ name) = none) :
    gfx_clock (zero_device path) fs = Except.ok "0MHz" := by
  have hs : to_string (0 / 1000000) = "0" := rfl
  simp only [gfx_clock, zero_device, read_file_sentinel path fs h, stoull_zero]
  simp [hs, bind, Except.bind, pure, Except.pure]

theorem mem_clock_sentinel (path : String) (fs : Files)
    (h : ∀ name, fs (path ++ name) = none) :
    mem_clock (zero_device path) fs = Except.ok "0MHz" := by
  have hs : to_string (0 / 1000000) = "0" := rfl
  simp only [mem_clock, zero_device, read_file_sentinel path fs h, stoull_zero]
  simp [hs, bind, Except.bind, pure, Except.pure]

/-- C1, as amended.  Over a base path under which no telemetry file can be opened,
`read_file` returns `"0"` for every path, the constructor succeeds with all eight capacity
fields equal to 0, and no poll raises.  Eleven polls return `"0"` followed by the suffix of
the metric (`%`, `/0MiB`, `W`, `C`, `RPM`, `mV`, `MHz`, nothing for the link speed); the link
width returns `"x0"`, the `"0"` preceded by its marker `x`. -/
theorem sentinel_policy (path : String) (fs : Files) (h : ∀ name, fs (path ++ name) = none) :
    (∀ name, read_file path fs name = "0") ∧
    ∃ d, device.new path fs = Except.ok d ∧
      (d.m_vram = 0 ∧ d.m_gtt = 0 ∧ d.m_vis_vram = 0 ∧ d.m_power_min = 0 ∧ d.m_power_max = 0 ∧
        d.m_temp_crit = 0 ∧ d.m_fan_min = 0 ∧ d.m_fan_max = 0) ∧
      busy d fs = Except.ok ("0" ++ "%", Dbl.fin 0) ∧
      vram d fs = Except.ok ("0" ++ "/0MiB", Dbl.nan) ∧
      gtt d fs = Except.ok ("0" ++ "/0MiB", Dbl.nan) ∧
      vis_vram d fs = Except.ok ("0" ++ "/0MiB", Dbl.nan) ∧
      power d fs = Except.ok ("0" ++ "W", Dbl.nan) ∧
      temperature d fs = Except.ok ("0" ++ "C", Dbl.nan) ∧
      fan d fs = Except.ok ("0" ++ "RPM", Dbl.nan) ∧
      voltage d fs = "0" ++ "mV" ∧
      gfx_clock d fs = Except.ok ("0" ++ "MHz") ∧
      mem_clock d fs = Except.ok ("0" ++ "MHz") ∧
      link_speed d fs = "0" ∧
      link_width d fs = "x" ++ "0" := by
  refine ⟨read_file_sentinel path fs h, zero_device path, device_new_sentinel path fs h,
    ⟨rfl, rfl, rfl, rfl, rfl, rfl, rfl, rfl⟩, busy_sentinel path fs h, vram_sentinel path fs h,
    gtt_sentinel path fs h, vis_vram_sentinel path fs h, power_sentinel path fs h,
    temperature_sentinel path fs h, fan_sentinel path fs h, ?_, gfx_clock_sentinel path fs h,
    mem_clock_sentinel path fs h, ?_, ?_⟩
  · simp [voltage, zero_device, read_file_sentinel path fs h]
  · simp [link_speed, zero_device, read_file_sentinel path fs h]
  · simp [link_width, zero_device, read_file_sentinel path fs h]

/-- The sentinel policy at the directory `main` uses, with no file present. -/
theorem sentinel_policy_witness :
    (∀ name, no_files (card0 ++ name) = none) ∧
    ∃ d, device.new card0 no_files = Except.ok d ∧
      busy d no_files = Except.ok ("0%", Dbl.fin 0) ∧
      vram d no_files = Except.ok ("0/0MiB", Dbl.nan) ∧
      fan d no_files = Except.ok ("0RPM", Dbl.nan) ∧
      link_width d no_files = "x0" := by
  refine ⟨fun _ => rfl, ?_⟩
  obtain ⟨_, d, hd, _, hb, hv, _, _, _, _, hf, _, _, _, _, hl⟩ :=
    sentinel_policy card0 no_files (fun _ => rfl)
  exact ⟨d, hd, hb, hv, hf, hl⟩

/-- C1 as stated fails for the link width: over a directory with no file its display is
`"x0"`, which is not `"0"` followed by a suffix. -/
theorem link_width_sentinel_has_no_suffix_form :
    ∃ d, device.new card0 no_files = Except.ok d ∧
      link_width d no_files = "x0" ∧
      ¬ ∃ suffix : String, link_width d no_files = "0" ++ suffix := by
  refine ⟨_, device_new_sentinel card0 no_files (fun _ => rfl), rfl, ?_⟩
  rintro ⟨suffix, hs⟩
  have h1 : link_width (zero_device card0) no_files = "x0" := rfl
  rw [h1] at hs
  have h2 := congrArg String.data hs
  simp at h2

/-! ## C2 to C5: `draw_bar` -/

theorem clamp_nan (lo hi : Dbl) : clamp Dbl.nan lo hi = Dbl.nan := by
  cases hi <;> simp [clamp, Dbl.lt]

/-- On every double that is a number the clamp step of `draw_bar` lands in `[0, 1]`. -/
theorem clamp_unit_of_number (v : Dbl) (hv : v ≠ Dbl.nan) :
    Dbl.le (Dbl.fin 0) (clamp v (Dbl.fin 0) (Dbl.fin 1)) = true ∧
    Dbl.le (clamp v (Dbl.fin 0) (Dbl.fin 1)) (Dbl.fin 1) = true := by
  cases v with
  | nan => exact absurd rfl hv
  | ninf => simp [clamp, Dbl.lt, Dbl.le]
  | pinf => simp [clamp, Dbl.lt, Dbl.le]
  | fin q =>
      unfold clamp
      by_cases h0 : q < 0
      · simp [Dbl.lt, Dbl.le, h0]
      · by_cases h1 : 1 < q
        · simp [Dbl.lt, Dbl.le, h0, h1]
        · simp only [Dbl.lt, h0, h1, decide_False, Bool.false_eq_true, if_false, Dbl.le,
            decide_eq_true_eq]
          exact ⟨not_lt.1 h0, not_lt.1 h1⟩

theorem to_int_zero : to_int (Dbl.fin 0) = some 0 := by
  simp [to_int]

theorem bars_nan (width : ℤ) (str : String) : bars width Dbl.nan str = none := by
  unfold bars
  rw [clamp_nan]
  cases i2d (width - (2 + (str.length : ℤ))) <;> simp [Dbl.mul, to_int]

theorem bars_zero_fraction (width : ℤ) (str : String)
    (h : |width - (2 + (str.length : ℤ))| < 2 ^ 53) : bars width (Dbl.fin 0) str = some 0 := by
  have hc : clamp (Dbl.fin 0) (Dbl.fin 0) (Dbl.fin 1) = Dbl.fin 0 := by
    simp [clamp, Dbl.lt]
  unfold bars
  rw [hc, i2d_eq h]
  simp [Dbl.mul, roundQ_zero, to_int_zero]

theorem clamp_fin_of_number (v : Dbl) (hv : v ≠ Dbl.nan) :
    ∃ q : ℚ, clamp v (Dbl.fin 0) (Dbl.fin 1) = Dbl.fin q ∧ 0 ≤ q ∧ q ≤ 1 := by
  obtain ⟨h0, h1⟩ := clamp_unit_of_number v hv
  cases hc : clamp v (Dbl.fin 0) (Dbl.fin 1) with
  | nan => rw [hc] at h0; simp [Dbl.le] at h0
  | ninf => rw [hc] at h0; simp [Dbl.le] at h0
  | pinf => rw [hc] at h1; simp [Dbl.le] at h1
  | fin q =>
      rw [hc] at h0 h1
      simp only [Dbl.le, decide_eq_true_eq] at h0 h1
      exact ⟨q, rfl, h0, h1⟩

/-- Where the interior width is not negative and the fraction is a number, `bars` is the
floor of the double product of the interior width and the clamped fraction, and lies between
0 and the interior width. -/
theorem bars_within_interior (width : ℤ) (pc : Dbl) (str : String) (hpc : pc ≠ Dbl.nan)
    (h0 : 0 ≤ width - (2 + (str.length : ℤ))) (h1 : width - (2 + (str.length : ℤ)) < 2 ^ 31) :
    ∃ r : ℚ, Dbl.mul (i2d (width - (2 + (str.length : ℤ)))) (clamp pc (Dbl.fin 0) (Dbl.fin 1))
        = Dbl.fin r ∧
      bars width pc str = some ⌊r⌋ ∧ 0 ≤ ⌊r⌋ ∧ ⌊r⌋ ≤ width - (2 + (str.length : ℤ)) := by
  obtain ⟨q, hq, hq0, hq1⟩ := clamp_fin_of_number pc hpc
  obtain ⟨n, hn⟩ := Int.eq_ofNat_of_zero_le h0
  have hn31 : n < 2 ^ 31 := by
    rw [hn] at h1
    exact_mod_cast h1
  have hi : i2d (width - (2 + (str.length : ℤ))) = Dbl.fin n := by
    rw [hn]
    have := @i2d_eq (n : ℤ) (by rw [abs_of_nonneg (by positivity)]; exact_mod_cast (by omega : n < 2 ^ 53))
    simpa using this
  have hn0 : (0 : ℚ) ≤ n := by positivity
  obtain ⟨r, hr, hr0, hrn⟩ := @roundQ_bounds ((n : ℚ) * q) n (by positivity)
    (by nlinarith) (by omega)
  have hfl0 : 0 ≤ ⌊r⌋ := Int.floor_nonneg.2 hr0
  have hfln : ⌊r⌋ ≤ (n : ℤ) := by
    have : (⌊r⌋ : ℚ) ≤ n := le_trans (Int.floor_le r) hrn
    exact_mod_cast this
  refine ⟨r, ?_, ?_, hfl0, by rw [hn]; exact hfln⟩
  · rw [hi, hq]
    simp [Dbl.mul, hr]
  · unfold bars
    rw [hi, hq]
    simp only [Dbl.mul, hr, to_int, if_pos hr0]
    rw [if_pos]
    constructor
    · omega
    · have : (n : ℤ) < 2 ^ 31 := by exact_mod_cast hn31
      omega

/-- Where the interior width is not negative and the fraction is a number, `draw_bar` draws
the bar: both delimiters, the fill and the value string; with colours enabled the fill is
drawn in the colour selected by the clamped fraction. -/
theorem draw_bar_draws (use_color : Bool) (row col width : ℤ) (pc : Dbl) (str : String)
    (hpc : pc ≠ Dbl.nan) (h0 : 0 ≤ width - (2 + (str.length : ℤ)))
    (h1 : width - (2 + (str.length : ℤ)) < 2 ^ 31) :
    ∃ n cmds, bars width pc str = some n ∧
      draw_bar use_color row col width pc str = some cmds ∧
      Cmd.addch '[' ∈ cmds ∧
      Cmd.addstr (c_str (String.mk (List.replicate n.toNat '|'))) ∈ cmds ∧
      Cmd.addstr (c_str str) ∈ cmds ∧ Cmd.addch ']' ∈ cmds ∧
      (use_color = true →
        Cmd.attron (Attr.COLOR_PAIR (bar_color (clamp pc (Dbl.fin 0) (Dbl.fin 1)))) ∈ cmds) := by
  obtain ⟨r, _, hb, hb0, _⟩ := bars_within_interior width pc str hpc h0 h1
  have hd : draw_bar use_color row col width pc str = some
      ([Cmd.move row col, Cmd.clrtoeol,
        Cmd.attron Attr.A_BOLD, Cmd.addch '[', Cmd.attroff Attr.A_BOLD]
        ++ print_string use_color (bar_color (clamp pc (Dbl.fin 0) (Dbl.fin 1)))
            (String.mk (List.replicate ⌊r⌋.toNat '|')) Attr.normal
        ++ [Cmd.move row (col + (width - (2 + (str.length : ℤ))) + 1), Cmd.attron Attr.A_BOLD]
        ++ print_string use_color color.type.value str Attr.normal
        ++ [Cmd.addch ']', Cmd.attroff Attr.A_BOLD]) := by
    unfold draw_bar
    rw [hb]
    simp only [if_neg (not_lt.2 hb0)]
  refine ⟨⌊r⌋, _, hb, hd, ?_, ?_, ?_, ?_, ?_⟩
  · simp [print_string]
  · simp [print_string]
  · simp [print_string]
  · simp [print_string]
  · intro huc
    simp [print_string, set_color, huc]

/-- Where `bars` is negative `draw_bar` returns after clearing the row. -/
theorem draw_bar_skips (use_color : Bool) (row col width : ℤ) (pc : Dbl) (str : String)
    (n : ℤ) (hb : bars width pc str = some n) (hn : n < 0) :
    draw_bar use_color row col width pc str = some [Cmd.move row col, Cmd.clrtoeol] := by
  unfold draw_bar
  rw [hb]
  simp only [if_pos hn]

/-- C2, the failing input.  With no telemetry file present `vram` returns the fraction
`0.0 / 0.0`, a not-a-number; the clamp step of `draw_bar` returns it unchanged, so the value
used afterwards is not within `[0, 1]`, and the conversion of `width * pc` to `int` is then
undefined for every width. -/
theorem clamp_lets_nan_through :
    device.new card0 no_files = Except.ok (zero_device card0) ∧
    vram (zero_device card0) no_files = Except.ok ("0/0MiB", Dbl.nan) ∧
    clamp Dbl.nan (Dbl.fin 0) (Dbl.fin 1) = Dbl.nan ∧
    Dbl.le (Dbl.fin 0) (clamp Dbl.nan (Dbl.fin 0) (Dbl.fin 1)) = false ∧
    Dbl.le (clamp Dbl.nan (Dbl.fin 0) (Dbl.fin 1)) (Dbl.fin 1) = false ∧
    (∀ use_color row col width,
      draw_bar use_color row col width Dbl.nan "0/0MiB" = none) := by
  refine ⟨device_new_sentinel card0 no_files (fun _ => rfl),
    vram_sentinel card0 no_files (fun _ => rfl), clamp_nan _ _, ?_, ?_, ?_⟩
  · rw [clamp_nan]; rfl
  · rw [clamp_nan]; rfl
  · intro use_color row col width
    unfold draw_bar
    rw [bars_nan]

/-- C3, the failing input.  In a 22 column terminal the fan row at 0 RPM is drawn by
`draw_bar(7, 15, 5, 0.0, "0RPM")`: the interior width is `5 - 2 - 4 = -1`, `bars` is
`static_cast<int>(-1 * 0.0) = 0`, the guard `bars < 0` does not fire and a bar with 0 fill
characters is drawn, so the fill count 0 exceeds the interior width -1. -/
theorem fill_exceeds_negative_interior :
    (5 : ℤ) - 2 - (("0RPM".length : ℕ) : ℤ) = -1 ∧
    bars 5 (Dbl.fin 0) "0RPM" = some 0 ∧
    draw_bar false 7 15 5 (Dbl.fin 0) "0RPM" = some
      [Cmd.move 7 15, Cmd.clrtoeol, Cmd.attron Attr.A_BOLD, Cmd.addch '[',
       Cmd.attroff Attr.A_BOLD, Cmd.attron Attr.normal, Cmd.addstr "",
       Cmd.attroff Attr.normal, Cmd.move 7 15, Cmd.attron Attr.A_BOLD,
       Cmd.attron Attr.normal, Cmd.addstr "0RPM", Cmd.attroff Attr.normal, Cmd.addch ']',
       Cmd.attroff Attr.A_BOLD] ∧
    ¬ ((0 : ℤ) ≤ (5 : ℤ) - 2 - (("0RPM".length : ℕ) : ℤ)) := by
  have hb : bars 5 (Dbl.fin 0) "0RPM" = some 0 :=
    bars_zero_fraction 5 "0RPM" (by norm_num [abs_lt]; decide)
  refine ⟨by decide, hb, ?_, by decide⟩
  unfold draw_bar
  rw [hb]
  rfl

/-- C4, the failing input.  In a 20 column terminal the busy row at 0 percent is drawn by
`draw_bar(1, 15, 3, 0.0, "0%")`: `width - 2 - length` is `3 - 2 - 2 = -1 < 0`, yet the bar
is not skipped: both delimiters and the value string are drawn. -/
theorem narrow_bar_not_skipped :
    (20 : ℤ) - text_len - hpad = 3 ∧
    (3 : ℤ) - 2 - (("0%".length : ℕ) : ℤ) < 0 ∧
    ∃ cmds, draw_bar true 1 text_len 3 (Dbl.fin 0) "0%" = some cmds ∧
      Cmd.addch '[' ∈ cmds ∧ Cmd.addstr "0%" ∈ cmds ∧ Cmd.addch ']' ∈ cmds := by
  have hb : bars 3 (Dbl.fin 0) "0%" = some 0 :=
    bars_zero_fraction 3 "0%" (by norm_num [abs_lt]; decide)
  have hc : c_str "0%" = "0%" := rfl
  refine ⟨by decide, by decide, ?_⟩
  unfold draw_bar
  rw [hb]
  refine ⟨_, rfl, ?_, ?_, ?_⟩ <;> simp [print_string, set_color, remove_color, hc]

theorem lit_033_lt_lit_067 :
    (5944751508129055 / 2 ^ 54 : ℚ) < 6034823500676465 / 2 ^ 53 := by norm_num

theorem bar_color_fin (q : ℚ) :
    bar_color (Dbl.fin q) =
      if q < 5944751508129055 / 2 ^ 54 then color.type.ok
      else if q < 6034823500676465 / 2 ^ 53 then color.type.warn else color.type.bad := by
  simp [bar_color, lit_033_eq, lit_067_eq, Dbl.lt]

/-- C5.  The two thresholds of `draw_bar` are the doubles nearest to 0.33 and to 0.67,
`5944751508129055 / 2 ^ 54` and `6034823500676465 / 2 ^ 53`.  The colour of a bar is decided
by them alone: ok exactly below `0.33`, warn exactly from `0.33` up to but excluding `0.67`,
bad exactly from `0.67` on (and for a not-a-number, which no comparison places); the colour
is one of the three tiers, and a larger fraction never selects a lower tier. -/
theorem bar_color_partition (f g : Dbl) :
    lit_033 = Dbl.fin (5944751508129055 / 2 ^ 54) ∧
    lit_067 = Dbl.fin (6034823500676465 / 2 ^ 53) ∧
    |(5944751508129055 / 2 ^ 54 : ℚ) - 33 / 100| ≤ 1 / 2 ^ 55 ∧
    |(6034823500676465 / 2 ^ 53 : ℚ) - 67 / 100| ≤ 1 / 2 ^ 54 ∧
    (∀ q : ℚ, bar_color (Dbl.fin q) =
      if q < 5944751508129055 / 2 ^ 54 then color.type.ok
      else if q < 6034823500676465 / 2 ^ 53 then color.type.warn else color.type.bad) ∧
    (bar_color f = color.type.ok ↔ Dbl.lt f lit_033 = true) ∧
    (bar_color f = color.type.warn ↔ Dbl.le lit_033 f = true ∧ Dbl.lt f lit_067 = true) ∧
    (bar_color f = color.type.bad ↔ Dbl.le lit_067 f = true ∨ f = Dbl.nan) ∧
    (bar_color f = color.type.ok ∨ bar_color f = color.type.warn ∨
      bar_color f = color.type.bad) ∧
    (Dbl.le f g = true → (bar_color f).rank ≤ (bar_color g).rank) := by
  have hab := lit_033_lt_lit_067
  refine ⟨lit_033_eq, lit_067_eq, by norm_num [abs_le], by norm_num [abs_le], bar_color_fin,
    ?_, ?_, ?_, ?_, ?_⟩
  · cases f with
    | fin q =>
        rw [bar_color_fin, lit_033_eq]
        simp only [Dbl.lt, decide_eq_true_eq]
        split_ifs <;> simp_all
    | _ => simp [bar_color, lit_033_eq, lit_067_eq, Dbl.lt]
  · cases f with
    | fin q =>
        rw [bar_color_fin, lit_033_eq, lit_067_eq]
        simp only [Dbl.lt, Dbl.le, decide_eq_true_eq]
        split_ifs with h1 h2
        · simp only [false_iff, not_and, reduceCtorEq]
          intro h3
          exact absurd h1 (not_lt.2 h3)
        · simp only [true_iff]
          exact ⟨not_lt.1 h1, h2⟩
        · simp only [false_iff, not_and, reduceCtorEq]
          intro _
          exact h2
    | _ => simp [bar_color, lit_033_eq, lit_067_eq, Dbl.lt, Dbl.le]
  · cases f with
    | fin q =>
        rw [bar_color_fin, lit_067_eq]
        simp only [Dbl.le, decide_eq_true_eq]
        split_ifs with h1 h2
        · simp only [false_iff, not_or, reduceCtorEq, not_false_eq_true, and_true, not_le]
          linarith
        · simp only [false_iff, not_or, reduceCtorEq, not_false_eq_true, and_true, not_le]
          exact h2
        · simp only [true_iff, reduceCtorEq, or_false]
          exact not_lt.1 h2
    | _ => simp [bar_color, lit_033_eq, lit_067_eq, Dbl.lt, Dbl.le]
  · unfold bar_color
    split_ifs <;> simp
  · have hle2 : ∀ x, (bar_color x).rank ≤ 2 := by
      intro x
      unfold bar_color
      split_ifs <;> simp [color.type.rank]
    have hpinf : bar_color Dbl.pinf = color.type.bad := by
      simp [bar_color, lit_033_eq, lit_067_eq, Dbl.lt]
    have hninf : bar_color Dbl.ninf = color.type.ok := by
      simp [bar_color, lit_033_eq, Dbl.lt]
    intro hle
    cases g with
    | nan => cases f <;> simp [Dbl.le] at hle
    | pinf => rw [hpinf]; exact hle2 f
    | ninf =>
        cases f with
        | ninf => exact le_refl _
        | _ => simp [Dbl.le] at hle
    | fin b =>
        cases f with
        | nan => simp [Dbl.le] at hle
        | pinf => simp [Dbl.le] at hle
        | ninf => rw [hninf]; exact Nat.zero_le _
        | fin a =>
            simp only [Dbl.le, decide_eq_true_eq] at hle
            rw [bar_color_fin, bar_color_fin]
            split_ifs <;> simp only [color.type.rank, le_refl, Nat.zero_le, Nat.one_le_ofNat] <;>
              (exfalso; linarith)

/-- C5 at concrete fractions: 0 and 0.2 select ok, 0.5 selects warn, 0.8 and 1 select bad;
the double 0.33 itself selects warn and the double just below it ok; the double 0.67 itself
selects bad and the double just below it warn. -/
theorem bar_color_partition_witness :
    bar_color (Dbl.fin 0) = color.type.ok ∧
    bar_color (Dbl.fin (1 / 5)) = color.type.ok ∧
    bar_color (Dbl.fin (1 / 2)) = color.type.warn ∧
    bar_color (Dbl.fin (4 / 5)) = color.type.bad ∧
    bar_color (Dbl.fin 1) = color.type.bad ∧
    bar_color (Dbl.fin (5944751508129054 / 2 ^ 54)) = color.type.ok ∧
    bar_color (roundQ (33 / 100)) = color.type.warn ∧
    bar_color (Dbl.fin (6034823500676464 / 2 ^ 53)) = color.type.warn ∧
    bar_color (roundQ (67 / 100)) = color.type.bad := by
  obtain ⟨h33, h67, _, _, hfin, _⟩ := bar_color_partition Dbl.nan Dbl.nan
  have e33 : roundQ (33 / 100) = Dbl.fin (5944751508129055 / 2 ^ 54) := h33
  have e67 : roundQ (67 / 100) = Dbl.fin (6034823500676465 / 2 ^ 53) := h67
  rw [e33, e67]
  simp only [hfin]
  norm_num

/-! ## C6: the power reading -/

theorem power_eq (d : device) (fs : Files) (p : ℕ)
    (hp : stoull (read_file d.m_path fs "hwmon/hwmon1/power1_average") = Except.ok p) :
    power d fs = Except.ok (to_string (p / 1000000) ++ "W",
      Dbl.div (u2d (usub p d.m_power_min)) (u2d (usub d.m_power_max d.m_power_min))) := by
  simp only [power, hp]
  rfl

theorem device_new_power_files :
    device.new card0 (power_files "50000\n" "100000\n" "900000\n") = Except.ok
      { zero_device card0 with m_power_min := 100000, m_power_max := 900000 } := rfl

theorem u2d_400000 : u2d 400000 = Dbl.fin 400000 := by
  simpa using @u2d_eq 400000 (by norm_num)

theorem u2d_800000 : u2d 800000 = Dbl.fin 800000 := by
  simpa using @u2d_eq 800000 (by norm_num)

theorem u2d_wrapped : u2d 18446744073709501616 = Dbl.fin 18446744073709502464 := by
  have h := @roundQ_eq_of_near 18446744073709501616 63 9007199254740968 (by norm_num)
    (by norm_num) (by norm_num) (by norm_num [abs_lt]) (by norm_num)
  unfold u2d
  push_cast
  rw [h]
  norm_num

theorem wrapped_quotient :
    roundQ (18446744073709502464 / 800000) = Dbl.fin (5902958103587041 / 256) := by
  have h := @roundQ_eq_of_near (18446744073709502464 / 800000) 44 5902958103587041
    (by norm_num) (by norm_num) (by norm_num) (by norm_num [abs_lt]) (by norm_num)
  rw [h]
  norm_num

theorem roundQ_400000_div_800000 : roundQ (400000 / 800000) = Dbl.fin (1 / 2) := by
  have : (400000 / 800000 : ℚ) = 1 / 2 := by norm_num
  rw [this, roundQ_half]

/-- The example of C6 that the code meets: `power1_average = 500000` between the caps
`100000` and `900000` gives the display `"0W"` and the fraction `0.5`. -/
theorem power_example :
    power { zero_device card0 with m_power_min := 100000, m_power_max := 900000 }
      (power_files "500000\n" "100000\n" "900000\n") = Except.ok ("0W", Dbl.fin (1 / 2)) := by
  have hp : stoull (read_file card0 (power_files "500000\n" "100000\n" "900000\n")
      "hwmon/hwmon1/power1_average") = Except.ok 500000 := rfl
  have h1 : usub 500000 100000 = 400000 := rfl
  have h2 : usub 900000 100000 = 800000 := rfl
  have hs : to_string (500000 / 1000000) = "0" := rfl
  rw [power_eq _ _ 500000 hp]
  show Except.ok (to_string (500000 / 1000000) ++ "W",
      Dbl.div (u2d (usub 500000 100000)) (u2d (usub 900000 100000))) = _
  rw [h1, h2, u2d_400000, u2d_800000, hs]
  simp [Dbl.div, roundQ_400000_div_800000]

/-- C6, the failing input.  With `power1_average = 50000` below `power1_cap_min = 100000`
(and `power1_cap_max = 900000`) the unsigned difference `p - m_power_min` wraps to
`2 ^ 64 - 50000`, so `power` returns the fraction `5902958103587041 / 256` (about
`2.3e13`, clamped to a full bar) where `(p - min) / (max - min)` is `-1/16` (clamped to an
empty bar). -/
theorem power_below_cap_min_wraps :
    device.new card0 (power_files "50000\n" "100000\n" "900000\n") = Except.ok
      { zero_device card0 with m_power_min := 100000, m_power_max := 900000 } ∧
    power { zero_device card0 with m_power_min := 100000, m_power_max := 900000 }
      (power_files "50000\n" "100000\n" "900000\n")
      = Except.ok ("0W", Dbl.fin (5902958103587041 / 256)) ∧
    ((50000 : ℚ) - 100000) / (900000 - 100000) = -1 / 16 ∧
    clamp (Dbl.fin (5902958103587041 / 256)) (Dbl.fin 0) (Dbl.fin 1) = Dbl.fin 1 ∧
    clamp (Dbl.fin (-1 / 16)) (Dbl.fin 0) (Dbl.fin 1) = Dbl.fin 0 := by
  have hp : stoull (read_file card0 (power_files "50000\n" "100000\n" "900000\n")
      "hwmon/hwmon1/power1_average") = Except.ok 50000 := rfl
  have h1 : usub 50000 100000 = 18446744073709501616 := rfl
  have h2 : usub 900000 100000 = 800000 := rfl
  have hs : to_string (50000 / 1000000) = "0" := rfl
  refine ⟨device_new_power_files, ?_, by norm_num, ?_, ?_⟩
  · rw [power_eq _ _ 50000 hp]
    show Except.ok (to_string (50000 / 1000000) ++ "W",
        Dbl.div (u2d (usub 50000 100000)) (u2d (usub 900000 100000))) = _
    rw [h1, h2, u2d_wrapped, u2d_800000, hs]
    simp [Dbl.div, wrapped_quotient]
  · simp [clamp, Dbl.lt]
    norm_num
  · simp [clamp, Dbl.lt]
    norm_num

/-- Within the cap range, with values that a double holds exactly, the fraction `power`
returns is the correctly rounded `(p - min) / (max - min)`. -/
theorem power_in_range (d : device) (fs : Files) (p : ℕ)
    (hp : stoull (read_file d.m_path fs "hwmon/hwmon1/power1_average") = Except.ok p)
    (hmin : d.m_power_min ≤ p) (hmax : d.m_power_min < d.m_power_max)
    (hp53 : p < 2 ^ 53) (hmax53 : d.m_power_max < 2 ^ 53) :
    power d fs = Except.ok (to_string (p / 1000000) ++ "W",
      roundQ (((p : ℚ) - d.m_power_min) / ((d.m_power_max : ℚ) - d.m_power_min))) := by
  have h1 : usub p d.m_power_min = p - d.m_power_min := by
    unfold usub
    have : d.m_power_min % 2 ^ 64 = d.m_power_min := Nat.mod_eq_of_lt (by omega)
    rw [this]
    have : p + 2 ^ 64 - d.m_power_min = (p - d.m_power_min) + 2 ^ 64 := by omega
    rw [this, Nat.add_mod_right]
    exact Nat.mod_eq_of_lt (by omega)
  have h2 : usub d.m_power_max d.m_power_min = d.m_power_max - d.m_power_min := by
    unfold usub
    have : d.m_power_min % 2 ^ 64 = d.m_power_min := Nat.mod_eq_of_lt (by omega)
    rw [this]
    have : d.m_power_max + 2 ^ 64 - d.m_power_min
        = (d.m_power_max - d.m_power_min) + 2 ^ 64 := by omega
    rw [this, Nat.add_mod_right]
    exact Nat.mod_eq_of_lt (by omega)
  have hne : ((d.m_power_max - d.m_power_min : ℕ) : ℚ) ≠ 0 := by
    have : d.m_power_max - d.m_power_min ≠ 0 := by omega
    exact_mod_cast this
  rw [power_eq d fs p hp, h1, h2, @u2d_eq (p - d.m_power_min) (by omega),
    @u2d_eq (d.m_power_max - d.m_power_min) (by omega)]
  simp only [Dbl.div, hne, if_false]
  rw [Nat.cast_sub hmin, Nat.cast_sub hmax.le]

/-! ## C7: the memory readings -/

theorem vram_eq (d : device) (fs : Files) (u : ℕ)
    (hu : stoull (read_file d.m_path fs "mem_info_vram_used") = Except.ok u) :
    vram d fs = Except.ok (to_string (u / (1024 * 1024)) ++ d.m_vram_str,
      Dbl.div (u2d u) (u2d d.m_vram)) := by
  simp only [vram, hu]
  rfl

theorem gtt_eq (d : device) (fs : Files) (u : ℕ)
    (hu : stoull (read_file d.m_path fs "mem_info_gtt_used") = Except.ok u) :
    gtt d fs = Except.ok (to_string (u / (1024 * 1024)) ++ d.m_gtt_str,
      Dbl.div (u2d u) (u2d d.m_gtt)) := by
  simp only [gtt, hu]
  rfl

theorem vis_vram_eq (d : device) (fs : Files) (u : ℕ)
    (hu : stoull (read_file d.m_path fs "mem_info_vis_vram_used") = Except.ok u) :
    vis_vram d fs = Except.ok (to_string (u / (1024 * 1024)) ++ d.m_vis_vram_str,
      Dbl.div (u2d u) (u2d d.m_vis_vram)) := by
  simp only [vis_vram, hu]
  rfl

/-- What a successful construction stored: every capacity field is the parsed first line of
its file, and the three suffix strings are derived from the totals. -/
theorem device_new_ok (path : String) (fs : Files) (d : device)
    (hd : device.new path fs = Except.ok d) :
    d.m_path = path ∧
    stoull (read_file path fs "mem_info_vram_total") = Except.ok d.m_vram ∧
    stoull (read_file path fs "mem_info_gtt_total") = Except.ok d.m_gtt ∧
    stoull (read_file path fs "mem_info_vis_vram_total") = Except.ok d.m_vis_vram ∧
    stoull (read_file path fs "hwmon/hwmon1/power1_cap_min") = Except.ok d.m_power_min ∧
    stoull (read_file path fs "hwmon/hwmon1/power1_cap_max") = Except.ok d.m_power_max ∧
    stoull (read_file path fs "hwmon/hwmon1/temp1_crit") = Except.ok d.m_temp_crit ∧
    stoull (read_file path fs "hwmon/hwmon1/fan1_min") = Except.ok d.m_fan_min ∧
    stoull (read_file path fs "hwmon/hwmon1/fan1_max") = Except.ok d.m_fan_max ∧
    d.m_vram_str = "/" ++ to_string (d.m_vram / (1024 * 1024)) ++ "MiB" ∧
    d.m_gtt_str = "/" ++ to_string (d.m_gtt / (1024 * 1024)) ++ "MiB" ∧
    d.m_vis_vram_str = "/" ++ to_string (d.m_vis_vram / (1024 * 1024)) ++ "MiB" := by
  unfold device.new at hd
  cases h1 : stoull (read_file path fs "mem_info_vram_total") with
  | error e => rw [h1] at hd; cases hd
  | ok a1 =>
  cases h2 : stoull (read_file path fs "mem_info_gtt_total") with
  | error e => rw [h1, h2] at hd; cases hd
  | ok a2 =>
  cases h3 : stoull (read_file path fs "mem_info_vis_vram_total") with
  | error e => rw [h1, h2, h3] at hd; cases hd
  | ok a3 =>
  cases h4 : stoull (read_file path fs "hwmon/hwmon1/power1_cap_min") with
  | error e => rw [h1, h2, h3, h4] at hd; cases hd
  | ok a4 =>
  cases h5 : stoull (read_file path fs "hwmon/hwmon1/power1_cap_max") with
  | error e => rw [h1, h2, h3, h4, h5] at hd; cases hd
  | ok a5 =>
  cases h6 : stoull (read_file path fs "hwmon/hwmon1/temp1_crit") with
  | error e => rw [h1, h2, h3, h4, h5, h6] at hd; cases hd
  | ok a6 =>
  cases h7 : stoull (read_file path fs "hwmon/hwmon1/fan1_min") with
  | error e => rw [h1, h2, h3, h4, h5, h6, h7] at hd; cases hd
  | ok a7 =>
  cases h8 : stoull (read_file path fs "hwmon/hwmon1/fan1_max") with
  | error e => rw [h1, h2, h3, h4, h5, h6, h7, h8] at hd; cases hd
  | ok a8 =>
  rw [h1, h2, h3, h4, h5, h6, h7, h8] at hd
  have hd2 := Except.ok.inj hd
  subst hd2
  exact ⟨rfl, rfl, rfl, rfl, rfl, rfl, rfl, rfl, rfl, rfl, rfl, rfl⟩

/-- With byte counts that a double holds exactly and a non-zero total, the fraction of a
memory reading is the correctly rounded quotient of the raw counts. -/
theorem spec_memory_reading_fraction (u t : ℕ) (hu : u < 2 ^ 53) (ht : t < 2 ^ 53)
    (hpos : 0 < t) : (spec_memory_reading u t).2 = roundQ ((u : ℚ) / t) := by
  have hne : (t : ℚ) ≠ 0 := by exact_mod_cast hpos.ne'
  simp [spec_memory_reading, u2d_eq hu, u2d_eq ht, Dbl.div, hne]

/-- C7.  For a device constructed over the files `fs0` and polled over the files `fs`: when
the used file of a pool parses to `u` and its total file parsed to `t`, the poll returns the
display `u / 1048576` followed by the suffix `"/" + (t / 1048576) + "MiB"` and the fraction
`u / t` formed from the raw byte counts.  This holds for `vram`, `gtt` and `vis_vram`. -/
theorem memory_readings (path : String) (fs0 fs : Files) (d : device)
    (hd : device.new path fs0 = Except.ok d) (u t : ℕ) :
    (stoull (read_file path fs "mem_info_vram_used") = Except.ok u →
      stoull (read_file path fs0 "mem_info_vram_total") = Except.ok t →
      vram d fs = Except.ok (spec_memory_reading u t)) ∧
    (stoull (read_file path fs "mem_info_gtt_used") = Except.ok u →
      stoull (read_file path fs0 "mem_info_gtt_total") = Except.ok t →
      gtt d fs = Except.ok (spec_memory_reading u t)) ∧
    (stoull (read_file path fs "mem_info_vis_vram_used") = Except.ok u →
      stoull (read_file path fs0 "mem_info_vis_vram_total") = Except.ok t →
      vis_vram d fs = Except.ok (spec_memory_reading u t)) := by
  obtain ⟨hpath, h1, h2, h3, _, _, _, _, _, s1, s2, s3⟩ := device_new_ok path fs0 d hd
  refine ⟨?_, ?_, ?_⟩
  · intro hu ht
    rw [h1] at ht
    have ht2 := Except.ok.inj ht
    rw [← hpath] at hu
    rw [vram_eq d fs u hu, s1, ht2]
    rfl
  · intro hu ht
    rw [h2] at ht
    have ht2 := Except.ok.inj ht
    rw [← hpath] at hu
    rw [gtt_eq d fs u hu, s2, ht2]
    rfl
  · intro hu ht
    rw [h3] at ht
    have ht2 := Except.ok.inj ht
    rw [← hpath] at hu
    rw [vis_vram_eq d fs u hu, s3, ht2]
    rfl

theorem roundQ_2097152_div_4194304 : roundQ (2097152 / 4194304) = Dbl.fin (1 / 2) := by
  have : (2097152 / 4194304 : ℚ) = 1 / 2 := by norm_num
  rw [this, roundQ_half]

theorem roundQ_1572864_div_2097152 : roundQ (1572864 / 2097152) = Dbl.fin (3 / 4) := by
  have h := @roundQ_eq_of_near (1572864 / 2097152) (-1) (3 * 2 ^ 51) (by norm_num)
    (by norm_num) (by norm_num) (by norm_num [abs_lt]) (by norm_num)
  rw [h]
  norm_num

/-- The example of C7: 2097152 bytes used of 4194304 give the display `"2/4MiB"` and the
fraction `0.5`.  And 1572864 bytes used of 2097152 give the display `"1/2MiB"` with the
fraction `0.75` of the raw counts, not the `0.5` of the MiB values shown. -/
theorem memory_readings_witness :
    device.new card0 (vram_files "2097152\n" "4194304\n") = Except.ok
      { zero_device card0 with m_vram := 4194304, m_vram_str := "/4MiB" } ∧
    vram { zero_device card0 with m_vram := 4194304, m_vram_str := "/4MiB" }
      (vram_files "2097152\n" "4194304\n") = Except.ok ("2/4MiB", Dbl.fin (1 / 2)) ∧
    vram { zero_device card0 with m_vram := 2097152, m_vram_str := "/2MiB" }
      (vram_files "1572864\n" "2097152\n") = Except.ok ("1/2MiB", Dbl.fin (3 / 4)) := by
  have hd : device.new card0 (vram_files "2097152\n" "4194304\n") = Except.ok
      { zero_device card0 with m_vram := 4194304, m_vram_str := "/4MiB" } := rfl
  have hd2 : device.new card0 (vram_files "1572864\n" "2097152\n") = Except.ok
      { zero_device card0 with m_vram := 2097152, m_vram_str := "/2MiB" } := rfl
  refine ⟨hd, ?_, ?_⟩
  · rw [(memory_readings card0 _ (vram_files "2097152\n" "4194304\n") _ hd 2097152 4194304).1
      rfl rfl]
    have hs : (spec_memory_reading 2097152 4194304).1 = "2/4MiB" := rfl
    have hf : (spec_memory_reading 2097152 4194304).2 = Dbl.fin (1 / 2) := by
      rw [spec_memory_reading_fraction 2097152 4194304 (by norm_num) (by norm_num)
        (by norm_num)]
      simpa using roundQ_2097152_div_4194304
    rw [← hs, ← hf]
  · rw [(memory_readings card0 _ (vram_files "1572864\n" "2097152\n") _ hd2 1572864 2097152).1
      rfl rfl]
    have hs : (spec_memory_reading 1572864 2097152).1 = "1/2MiB" := rfl
    have hf : (spec_memory_reading 1572864 2097152).2 = Dbl.fin (3 / 4) := by
      rw [spec_memory_reading_fraction 1572864 2097152 (by norm_num) (by norm_num)
        (by norm_num)]
      simpa using roundQ_1572864_div_2097152
    rw [← hs, ← hf]

/-! ## C10: content that is not a number -/

/-- The letters of `nan` are a number form of `std::stod`: a fan file holding `nan` is read
as a not-a-number, without a failure. -/
theorem fan_reads_nan :
    stod "nan" = Except.ok Dbl.nan ∧
    fan (zero_device card0) (fan_files "nan\n") = Except.ok ("nanRPM", Dbl.nan) := by
  have hs : stod "nan" = Except.ok Dbl.nan := rfl
  have hr : read_file card0 (fan_files "nan\n") "hwmon/hwmon1/fan1_input" = "nan" := rfl
  refine ⟨hs, ?_⟩
  simp only [fan, zero_device, hr, hs]
  simp [Dbl.sub, Dbl.div, bind, Except.bind, pure, Except.pure]

/-! ## C8 and C9: the loop -/

theorem paint_sentinel (w : ℤ) :
    paint (zero_device card0) no_files w =
      ([Action.draw_bar 1 text_len w (Dbl.fin 0) "0%",
        Action.draw_bar 2 text_len w Dbl.nan "0/0MiB",
        Action.draw_bar 3 text_len w Dbl.nan "0/0MiB",
        Action.draw_bar 4 text_len w Dbl.nan "0/0MiB",
        Action.draw_bar 5 text_len w Dbl.nan "0W",
        Action.draw_bar 6 text_len w Dbl.nan "0C",
        Action.draw_bar 7 text_len w Dbl.nan "0RPM",
        Action.move 8 text_len, Action.clrtoeol,
        Action.print_string color.type.label "0mV" Attr.A_BOLD,
        Action.move 9 text_len, Action.clrtoeol,
        Action.print_string color.type.label "0MHz" Attr.A_BOLD,
        Action.move 10 text_len, Action.clrtoeol,
        Action.print_string color.type.label "0MHz" Attr.A_BOLD,
        Action.move 11 text_len, Action.clrtoeol,
        Action.print_string color.type.label "0" Attr.A_BOLD,
        Action.move 12 text_len, Action.clrtoeol,
        Action.print_string color.type.label "x0" Attr.A_BOLD], none) := by
  have hf : ∀ name, no_files (card0 ++ name) = none := fun _ => rfl
  have hv : voltage (zero_device card0) no_files = "0mV" := rfl
  have hl : link_speed (zero_device card0) no_files = "0" := rfl
  have hw : link_width (zero_device card0) no_files = "x0" := rfl
  unfold paint
  rw [busy_sentinel card0 no_files hf, vram_sentinel card0 no_files hf,
    gtt_sentinel card0 no_files hf, vis_vram_sentinel card0 no_files hf,
    power_sentinel card0 no_files hf, temperature_sentinel card0 no_files hf,
    fan_sentinel card0 no_files hf, gfx_clock_sentinel card0 no_files hf,
    mem_clock_sentinel card0 no_files hf, hv, hl, hw]
  rfl

theorem body_no_files (env : Env) (hf : env.files = no_files) (s : LoopState) :
    body (zero_device card0) env s =
      ((resize_step env.ws env.early s).1
        ++ (paint (zero_device card0) no_files
            ((resize_step env.ws env.early s).2.COLS - text_len - hpad)).1
        ++ [Action.refresh, Action.getch],
       Except.ok (env.signals.foldl (fun st sig => signal_handler sig st)
        (resize_step env.ws env.early s).2)) := by
  unfold body
  rw [hf, paint_sentinel]

/-- The loop condition at entry: with the stop flag set no iteration runs, otherwise the
iterations start. -/
theorem main_loop_entry (d : device) (envs : List Env) (s : LoopState) :
    (s.should_close ≠ 0 → main_loop d envs s = ([Action.endwin], Outcome.exit_success)) ∧
    (s.should_close = 0 → main_loop d envs s = iterate d envs s) := by
  unfold main_loop
  constructor
  · intro h
    rw [if_pos h]
  · intro h
    rw [if_neg (not_not.2 h)]

/-- C8.  When the body of an iteration has run to the return of `getch` in state `s1`: the
loop goes to `Terminating` exactly when the key is `q`, 4 or 27 or the stop flag is set; in
that case the run ends with `endwin` and a successful exit, and otherwise the run continues
with the next iteration from `s1`. -/
theorem loop_termination_step (d : device) (env : Env) (rest : List Env) (s s1 : LoopState)
    (hb : (body d env s).2 = Except.ok s1) :
    (after_poll env.key s1.should_close = Phase.Terminating ↔
      (env.key = (('q'.toNat : ℕ) : ℤ) ∨ env.key = 4 ∨ env.key = 27 ∨ s1.should_close ≠ 0)) ∧
    (after_poll env.key s1.should_close = Phase.Terminating →
      iterate d (env :: rest) s = ((body d env s).1 ++ [Action.endwin], Outcome.exit_success)) ∧
    (after_poll env.key s1.should_close = Phase.Running →
      iterate d (env :: rest) s
        = ((body d env s).1 ++ (iterate d rest s1).1, (iterate d rest s1).2)) := by
  have hbody : body d env s = ((body d env s).1, Except.ok s1) := by
    rw [← hb]
  refine ⟨?_, ?_, ?_⟩
  · unfold after_poll end_of_transmission escape
    by_cases hk : env.key = (('q'.toNat : ℕ) : ℤ) ∨ env.key = 4 ∨ env.key = 27
    · rw [if_pos hk]
      simp only [true_iff]
      rcases hk with h | h | h
      · exact Or.inl h
      · exact Or.inr (Or.inl h)
      · exact Or.inr (Or.inr (Or.inl h))
    · rw [if_neg hk]
      by_cases hc : s1.should_close ≠ 0
      · rw [if_pos hc]
        simp only [true_iff]
        exact Or.inr (Or.inr (Or.inr hc))
      · rw [if_neg hc]
        simp only [reduceCtorEq, false_iff]
        push_neg at hk hc ⊢
        exact ⟨hk.1, hk.2.1, hk.2.2, hc⟩
  · intro h
    rw [iterate, hbody]
    simp only [h]
  · intro h
    rw [iterate, hbody]
    simp only [h]

/-- C8 at concrete inputs, over a system without telemetry files and with both flags clear:
the key `q` ends the run with a successful exit, so does a `SIGTERM` that arrives while
`getch` times out, and a timeout of `getch` (`-1`) without a signal leaves the loop running. -/
theorem loop_termination_step_witness :
    (body (zero_device card0) (idle_env 113 []) ⟨0, 0, 80⟩).2 = Except.ok ⟨0, 0, 80⟩ ∧
    (iterate (zero_device card0) [idle_env 113 []] ⟨0, 0, 80⟩).2 = Outcome.exit_success ∧
    (iterate (zero_device card0) [idle_env (-1) [Signal.SIGTERM]] ⟨0, 0, 80⟩).2
      = Outcome.exit_success ∧
    (iterate (zero_device card0) [idle_env (-1) []] ⟨0, 0, 80⟩).2
      = Outcome.running ⟨0, 0, 80⟩ := by
  have hq : (body (zero_device card0) (idle_env 113 []) ⟨0, 0, 80⟩).2
      = Except.ok ⟨0, 0, 80⟩ := by
    rw [body_no_files _ rfl]
    rfl
  have hs : (body (zero_device card0) (idle_env (-1) [Signal.SIGTERM]) ⟨0, 0, 80⟩).2
      = Except.ok ⟨1, 0, 80⟩ := by
    rw [body_no_files _ rfl]
    rfl
  have ht : (body (zero_device card0) (idle_env (-1) []) ⟨0, 0, 80⟩).2
      = Except.ok ⟨0, 0, 80⟩ := by
    rw [body_no_files _ rfl]
    rfl
  refine ⟨hq, ?_, ?_, ?_⟩
  · rw [(loop_termination_step (zero_device card0) (idle_env 113 []) [] ⟨0, 0, 80⟩ ⟨0, 0, 80⟩
      hq).2.1 (by decide)]
  · rw [(loop_termination_step (zero_device card0) (idle_env (-1) [Signal.SIGTERM]) []
      ⟨0, 0, 80⟩ ⟨1, 0, 80⟩ hs).2.1 (by decide)]
  · rw [(loop_termination_step (zero_device card0) (idle_env (-1) []) [] ⟨0, 0, 80⟩ ⟨0, 0, 80⟩
      ht).2.2 (by decide)]
    rfl

end gpumon
